import Mathlib

/-!
Verification of the media-api job orchestrator (`app/main.py`).

The embedding models the Python module shallowly:
* floats become `ℚ` (all constants involved are decimal; Python's `round(x, 3)`
  is modelled exactly on rationals, banker's-rounding ties never arise for the
  values the claims mention);
* filesystem paths become segment lists (`List String`); `Path.resolve()` is
  modelled lexically (no symlinks), which is exactly the scope of the spec's
  "lexically remain under the base directory" wording;
* external effects (the TTS engine, ffprobe, the render command) are an
  `Oracle` of outcomes indexed by call number, and every filesystem write and
  TTS call is recorded as an event so that absence of effects is provable;
* JSON values that the orchestrator inspects dynamically become `JVal`
  (`num`/`str`/`other`); Python coercion of numeric strings by `float()` is out
  of the modelled scope (no claim exercises it), a non-`num` value makes
  `float()` raise, matching the code's exception paths.
-/

/-- Python `round(x, 3)` on rationals: round to the nearest multiple of 1/1000.
(Mathlib's `round` rounds half away from zero upward; Python uses banker's
rounding on binary floats.  No claim involves an exact half-millisecond tie.) -/
def round3 (q : ℚ) : ℚ := (round (q * 1000) : ℤ) / 1000

/-- Python `str.strip()` (whitespace at both ends). -/
def pyStrip (s : String) : String :=
  ⟨((s.data.dropWhile Char.isWhitespace).reverse.dropWhile Char.isWhitespace).reverse⟩

/-- A character stripped by `lstrip("/\\")`. -/
def isSlashChar (c : Char) : Bool := c == '/' || c == '\\'

/-- Python `str.lstrip("/\\")`. -/
def lstripSlashes (s : String) : String := ⟨s.data.dropWhile isSlashChar⟩

/-- Split a character list on `'/'` (the separator used by POSIX `Path.parts`;
backslash is an ordinary character on POSIX). -/
def splitSlash : List Char → List String
  | [] => [⟨[]⟩]
  | c :: rest =>
    if c = '/' then ⟨[]⟩ :: splitSlash rest
    else
      match splitSlash rest with
      | [] => [⟨[c]⟩]
      | seg :: segs => ⟨c :: seg.data⟩ :: segs

/- Configuration constants (the environment-variable defaults of the module). -/

def HOOK_MARGIN_SEC : ℚ := 8 / 10
def MIN_HOOK_SEC : ℚ := 3
def DEFAULT_CHAR_PER_SEC : ℚ := 8
def HOOK_AUDIO_PATH : String := "media/audio/hook.wav"
def PROJECTS_ROOT : List String := ["remotion-projects"]
def VIDEO_OUT_DIR : List String := ["remotion-out"]

/-- A JSON value as far as the orchestrator inspects one: a number, a string,
or anything else (carrying only its Python truthiness). -/
inductive JVal where
  | num (q : ℚ)
  | str (s : String)
  | other (truthy : Bool)
deriving DecidableEq, Repr

/-- Python truthiness of a `JVal`. -/
def JVal.isTruthy : JVal → Bool
  | .num q => q != 0
  | .str s => s != ""
  | .other t => t

/-- Python `float(v)`: numbers convert, anything else raises (`none`).
(Numeric strings would coerce in Python; no claim exercises that case.) -/
def pyFloat : JVal → Option ℚ
  | .num q => some q
  | .str _ => none
  | .other _ => none

/- Data model (`SceneDraft`, `ScriptItem`, `ScriptGroupDraft`,
`ParameterJsonDraft`, `JobOptions`, `VideoJobRequest`).  Only the fields the
orchestrator reads or writes are modelled; pydantic's open extra-attribute
bags are narrowed to the keys actually used (`text` and the audio descriptor
on a scene). -/

/-- The audio-descriptor dict of a scene, narrowed to the keys the code reads
or writes (`src`, `durationSec`); other keys pass through untouched. -/
structure AudioDict where
  src : Option JVal := none
  durationSec : Option JVal := none
deriving DecidableEq, Repr

/-- The `audio` extra attribute of a scene: a string, a dict, or
absent/any other type (which every reader treats alike). -/
inductive AudioDesc where
  | astr (s : String)
  | adict (d : AudioDict)
  | anone
deriving DecidableEq, Repr

structure SceneDraft where
  startFrame : ℕ
  durationSec : Option ℚ := none
  text : Option String := none
  audioDesc : AudioDesc := .anone
deriving DecidableEq, Repr

structure ScriptItem where
  speaker : Option String := none
  text : Option String := none
  voice : Option String := none
  voiceSec : Option ℚ := none
deriving DecidableEq, Repr

structure ScriptGroupDraft where
  id : String
  gapSec : Option ℚ := none
  keepStack : Option Bool := some true
  items : List ScriptItem
deriving DecidableEq, Repr

/-- The `spec` mapping, narrowed to the keys read by the total-duration
fallback.  `none` = key absent. -/
structure RenderSpec where
  fps : Option JVal := none
  durationInFrames : Option JVal := none
deriving DecidableEq, Repr

/-- The `meta` mapping, narrowed to the `videoId` key. -/
structure MetaDict where
  videoId : Option JVal := none
deriving DecidableEq, Repr

structure ParameterJsonDraft where
  spec : RenderSpec
  meta : MetaDict
  scenes : List SceneDraft
  scriptGroups : List ScriptGroupDraft
deriving DecidableEq, Repr

/-- Job options (`render`/`overwrite`/`generateAudio`/`dryRun`).
`audioGen` embeds the `generateAudio` flag. -/
structure JobOptions where
  render : Bool := true
  overwrite : Bool := false
  audioGen : Bool := true
  dryRun : Bool := false
deriving DecidableEq, Repr

structure VideoJobRequest where
  videoId : String
  parameter : ParameterJsonDraft
  options : JobOptions := {}
deriving DecidableEq, Repr

inductive JobStatus where
  | queued
  | running
  | done
  | failed
deriving DecidableEq, Repr

/-- The progress dict, narrowed to the keys the orchestrator writes.
In a patch, `none` = key absent. -/
structure Progress where
  stage : Option String := none
  ttsTotal : Option ℕ := none
  ttsDone : Option ℕ := none
deriving DecidableEq, Repr

/-- Python `if progress:` — is the patch dict empty? -/
def Progress.isEmptyDict (p : Progress) : Bool :=
  p.stage.isNone && p.ttsTotal.isNone && p.ttsDone.isNone

/-- `{**old, **patch}`: key-wise overwrite. -/
def Progress.merge (old patch : Progress) : Progress :=
  { stage := match patch.stage with | some s => some s | none => old.stage
    ttsTotal := match patch.ttsTotal with | some t => some t | none => old.ttsTotal
    ttsDone := match patch.ttsDone with | some d => some d | none => old.ttsDone }

structure JobResult where
  parameterPath : List String
  hookSec : Option ℚ := none
  totalSec : Option ℚ := none
  videoPath : Option (List String) := none
deriving DecidableEq, Repr

structure JobError where
  code : String
  message : String
deriving DecidableEq, Repr

/-- A job record (timestamps omitted: no claim mentions them). -/
structure JobRecord where
  job_id : String
  request : VideoJobRequest
  status : JobStatus := .queued
  progress : Progress := { stage := some "waiting" }
  result : Option JobResult := none
  error : Option JobError := none
deriving DecidableEq, Repr

/-- One `_update_job(...)` call's keyword arguments (`none` = argument left
unset). -/
structure JobUpdate where
  status : Option JobStatus := none
  progress : Option Progress := none
  result : Option JobResult := none
  error : Option JobError := none
deriving DecidableEq, Repr

/-- `_update_job`: `if status: ...; if progress: ...;
if result is not None: ...; if error is not None: ...` applied to a record.
(A `JobStatus` enum value is a non-empty string, hence always truthy.) -/
def applyUpdate (rec : JobRecord) (u : JobUpdate) : JobRecord :=
  let rec1 := match u.status with
    | some s => { rec with status := s }
    | none => rec
  let rec2 := match u.progress with
    | some p => if p.isEmptyDict then rec1
                else { rec1 with progress := rec1.progress.merge p }
    | none => rec1
  let rec3 := match u.result with
    | some r => { rec2 with result := some r }
    | none => rec2
  match u.error with
  | some e => { rec3 with error := some e }
  | none => rec3

/-- The sequence of states of a job record under a sequence of updates,
including the initial state. -/
def snapshots (rec : JobRecord) : List JobUpdate → List JobRecord
  | [] => [rec]
  | u :: us => rec :: snapshots (applyUpdate rec u) us

/- Path and identifier handling (`_safe_join`, `_parameter_path`,
`_normalize_voice_path`, `_default_voice_name`, `_resolve_voice_file`). -/

/-- The sanitised relative segments `_safe_join` computes:
strip whitespace, strip leading slashes/backslashes, split into parts and
discard `""`/`"."`/`".."`. -/
def rel_segments (relative : String) : List String :=
  (splitSlash (lstripSlashes (pyStrip relative)).data).filter
    (fun p => p != "" && p != "." && p != "..")

/-- `_safe_join(base, relative)`: join the sanitised segments onto `base` and
fail with "unsafe path detected" unless the result stays under `base`
(the check is modelled lexically, as the spec words it). -/
def safe_join (base : List String) (relative : String) : Except String (List String) :=
  let full := base ++ rel_segments relative
  if base.isPrefixOf full then .ok full else .error "unsafe path detected"

/-- `PARAM_TEMPLATE.format(video_id=...)` with the default template
`"{video_id}/parameter.json"`. -/
def param_template (video_id : String) : String := video_id ++ "/parameter.json"

/-- `_parameter_path`. -/
def parameter_path (video_id : String) : Except String (List String) :=
  safe_join PROJECTS_ROOT (pyStrip (param_template video_id))

/-- `_project_dir` (the directory-creation side effect is not modelled). -/
def project_dir (video_id : String) : List String := PROJECTS_ROOT ++ [video_id]

/-- The prefixes `_normalize_voice_path` tries, in order. -/
def known_prefixes (video_id : String) : List String :=
  [ "/data/projects/" ++ video_id ++ "/"
  , "data/projects/" ++ video_id ++ "/"
  , "/" ++ video_id ++ "/"
  , video_id ++ "/" ]

/-- Remove the first matching element of `ps` from the front of `s`
(the `for prefix in prefixes: ... break` loop). -/
def drop_first_matching : List String → String → String
  | [], s => s
  | p :: ps, s =>
    if p.data.isPrefixOf s.data then ⟨s.data.drop p.data.length⟩
    else drop_first_matching ps s

/-- `_normalize_voice_path`. -/
def normalize_voice_path (video_id value : String) : String :=
  if value = "" then ""
  else lstripSlashes (drop_first_matching (known_prefixes video_id) (pyStrip value))

/-- Zero-padded two-digit rendering of `%02d` (all claim inputs are < 100). -/
def pad2 (n : ℕ) : String := if n < 10 then "0" ++ toString n else toString n

/-- `_default_voice_name`. -/
def default_voice_name (video_id : String) (group_index item_index : ℕ) : String :=
  "media/audio/" ++ video_id ++ "-" ++ pad2 (group_index + 1) ++ "-" ++
    pad2 (item_index + 1) ++ ".wav"

/-- `_resolve_voice_file`. -/
def resolve_voice_file (video_id voice_value : String) : Except String (List String) :=
  let target_rel := normalize_voice_path video_id voice_value
  if target_rel = "" then .error "voice path is empty"
  else safe_join (project_dir video_id) target_rel

/- Duration estimation and the timing resolver
(`_estimate_voice_sec`, `_compute_scene0_duration`). -/

/-- `_estimate_voice_sec`. -/
def estimate_voice_sec : Option String → ℚ
  | none => 0
  | some t =>
    if t = "" then 0
    else
      let length := (pyStrip t).data.length
      if length = 0 then 0
      else round3 (max (4 / 10) ((length : ℚ) / max DEFAULT_CHAR_PER_SEC 1))

/-- `item.voiceSec or _estimate_voice_sec(item.text)` (Python `or`:
a `voiceSec` of `0.0` also falls through to the estimate). -/
def item_contribution (it : ScriptItem) : ℚ :=
  match it.voiceSec with
  | some q => if q = 0 then estimate_voice_sec it.text else q
  | none => estimate_voice_sec it.text

/-- The accumulation loop of `_compute_scene0_duration`: item contributions
with the gap added between consecutive items only. -/
def sum_with_gaps (gap : ℚ) : List ScriptItem → ℚ
  | [] => 0
  | [it] => item_contribution it
  | it :: rest => item_contribution it + gap + sum_with_gaps gap rest

/-- The fallback hook duration computed from the first script group. -/
def hook_loop_total (g : ScriptGroupDraft) : ℚ :=
  max MIN_HOOK_SEC (sum_with_gaps (g.gapSec.getD 0) g.items + HOOK_MARGIN_SEC)

/-- The duration stated by the first scene's audio descriptor, when the
descriptor is a dict and the value is numeric. -/
def stated_hook_duration (s : SceneDraft) : Option ℚ :=
  match s.audioDesc with
  | .adict d =>
    match d.durationSec with
    | some (.num q) => some q
    | _ => none
  | _ => none

/-- `_compute_scene0_duration`: returns the computed value and the document
with scene 0's `durationSec` overwritten.  Note `if not audio_duration:` —
a stated duration of `0` is NOT trusted and triggers the fallback. -/
def compute_scene0_duration (p : ParameterJsonDraft) :
    Option ℚ × ParameterJsonDraft :=
  match p.scenes, p.scriptGroups with
  | first :: rest, g0 :: _ =>
    let value : ℚ :=
      match stated_hook_duration first with
      | some q => if q = 0 then hook_loop_total g0 else q
      | none => hook_loop_total g0
    let computed := round3 value
    (some computed, { p with scenes := { first with durationSec := some computed } :: rest })
  | _, _ => (none, p)

/- Total duration (the `total_sec` block of `_run_job`). -/

/-- The `frames / fps` fallback.  `current` is the value `total_sec` already
holds when the fallback runs (returned unchanged when `frames ≤ 0`); a
conversion failure or a division by zero is the absorbed exception (`none`). -/
def fallback_total_sec (p : ParameterJsonDraft) (current : Option ℚ) : Option ℚ :=
  match pyFloat (p.spec.fps.getD (.num 30)),
        pyFloat (match p.spec.durationInFrames with
                 | some v => if v.isTruthy then v else .num 0
                 | none => .num 0) with
  | some fps, some frames =>
    if 0 < frames then (if fps = 0 then none else some (round3 (frames / fps)))
    else current
  | _, _ => none

/-- The whole `total_sec` computation, including the final `if total_sec:`
guard deciding whether `totalSec` enters the result. -/
def compute_total_sec (p : ParameterJsonDraft) : Option ℚ :=
  let secs := (p.scenes.filterMap SceneDraft.durationSec).filter (fun q => q != 0)
  let total1 : Option ℚ := if secs.isEmpty then none else some (round3 secs.sum)
  let total2 : Option ℚ :=
    match total1 with
    | some t => if t = 0 then fallback_total_sec p total1 else total1
    | none => fallback_total_sec p none
  match total2 with
  | some t => if t = 0 then none else some t
  | none => none

/- The voice-synthesis stage (`_process_script_groups` and its helpers) and
the orchestrator (`_run_job`), with external effects supplied by an oracle
and recorded as events. -/

/-- The Python exceptions the pipeline distinguishes. -/
inductive PyErr where
  | fileNotFound (path : List String)
  | valueError (msg : String)
  | runtimeError (msg : String)
  | httpError (msg : String)
deriving DecidableEq, Repr

/-- `str(exc)`, as it enters the terminal error descriptor. -/
def PyErr.message : PyErr → String
  | .fileNotFound p => String.intercalate "/" p
  | .valueError m => m
  | .runtimeError m => m
  | .httpError m => m

/-- Outcome of one ffprobe invocation on an existing file: a non-zero exit,
or stdout (`none` = unparsable as a float). -/
inductive ProbeOut where
  | exitFail (msg : String)
  | output (parsed : Option ℚ)

/-- The external world: pre-existing files, and the outcome of the n-th TTS
call / n-th probe invocation / the render command (the render oracle covers
both a non-zero exit and a missing output artifact). -/
structure Oracle where
  fileExists0 : List String → Bool
  synth : ℕ → Except String Unit
  probe : ℕ → ProbeOut
  render : Except String (List String)

/-- Observable side effects of the pipeline. -/
inductive Event where
  | ttsCall (text : String)
  | fsWrite (path : List String)
deriving DecidableEq, Repr

/-- The running state threaded through the pipeline: files written so far,
the effect trace, the `_update_job` calls issued so far, the local `done`
counter, and the call counters for the oracles.  `persisted` holds the
document written by `_write_parameter`, when reached. -/
structure RunSt where
  written : List (List String) := []
  events : List Event := []
  updates : List JobUpdate := []
  done : ℕ := 0
  synthCalls : ℕ := 0
  probeCalls : ℕ := 0
  persisted : Option ParameterJsonDraft := none
deriving DecidableEq, Repr

/-- `path.exists()` during a run: pre-existing or written by this run. -/
def fileExistsNow (o : Oracle) (st : RunSt) (p : List String) : Bool :=
  o.fileExists0 p || st.written.contains p

/-- Append one `_update_job` call to the trace. -/
def emit (st : RunSt) (u : JobUpdate) : RunSt :=
  { st with updates := st.updates ++ [u] }

/-- The `{"ttsDone": n}` progress update. -/
def tts_done_update (n : ℕ) : JobUpdate :=
  { progress := some { ttsDone := some n } }

/-- The `{"stage": s}` progress update. -/
def stage_update (s : String) : JobUpdate :=
  { progress := some { stage := some s } }

/-- The `{"stage": "tts", "ttsTotal": total, "ttsDone": 0}` update opening the
synthesis stage. -/
def tts_init_update (total : ℕ) : JobUpdate :=
  { progress := some { stage := some "tts", ttsTotal := some total, ttsDone := some 0 } }

/-- `done += 1` followed by publishing `{"ttsDone": done}`. -/
def bump_done (st : RunSt) : RunSt :=
  { st with done := st.done + 1
            updates := st.updates ++ [tts_done_update (st.done + 1)] }

/-- `_synthesize_voice`: the HTTP round-trip happens (event recorded), then
either bytes come back or an HTTP error is raised.  Speaker/settings
resolution (`_resolve_speaker_id`, `_voice_settings_for_object`) only shapes
the call's arguments and cannot raise; it is not modelled. -/
def synthesize_voice (o : Oracle) (st : RunSt) (text : String) :
    RunSt × Except PyErr Unit :=
  let st' := { st with synthCalls := st.synthCalls + 1
                       events := st.events ++ [Event.ttsCall text] }
  match o.synth st.synthCalls with
  | .ok _ => (st', .ok ())
  | .error m => (st', .error (.httpError m))

/-- `_probe_audio_duration`: `FileNotFoundError` when the file does not
exist; otherwise run ffprobe and either fail (`RuntimeError`) or round the
parsed duration to 3 decimals. -/
def probe_audio_duration (o : Oracle) (st : RunSt) (path : List String) :
    RunSt × Except PyErr ℚ :=
  if fileExistsNow o st path then
    let st' := { st with probeCalls := st.probeCalls + 1 }
    match o.probe st.probeCalls with
    | .exitFail m => (st', .error (.runtimeError ("ffprobe failed: " ++ m)))
    | .output none => (st', .error (.runtimeError "invalid ffprobe output"))
    | .output (some q) => (st', .ok (round3 q))
  else (st, .error (.fileNotFound path))

/-- The `try: duration = await _probe_audio_duration(target)
except FileNotFoundError: duration = _estimate_voice_sec(text)` step. -/
def determine_duration (o : Oracle) (st : RunSt) (target : List String)
    (text : String) : RunSt × Except PyErr ℚ :=
  match probe_audio_duration o st target with
  | (st', .error (.fileNotFound _)) => (st', .ok (estimate_voice_sec (some text)))
  | (st', .error e) => (st', .error e)
  | (st', .ok d) => (st', .ok d)

/-- Write the synthesized bytes at `target`. -/
def record_write (st : RunSt) (target : List String) : RunSt :=
  { st with written := st.written ++ [target]
            events := st.events ++ [Event.fsWrite target] }

/-- `item.voice or _default_voice_name(...)` (Python `or`: an empty string
also falls through to the default name). -/
def item_voice_path (video_id : String) (group_index item_index : ℕ)
    (item : ScriptItem) : String :=
  match item.voice with
  | some v => if v = "" then default_voice_name video_id group_index item_index else v
  | none => default_voice_name video_id group_index item_index

/-- Materialise the audio artifact at `target`: when generation is enabled,
synthesize and write; otherwise require the file to already exist. -/
def stage_artifact (o : Oracle) (opts : JobOptions) (st : RunSt)
    (target : List String) (synth_text voice_path : String) :
    RunSt × Except PyErr Unit :=
  if opts.audioGen then
    match synthesize_voice o st synth_text with
    | (st1, .ok _) => (record_write st1 target, .ok ())
    | (st1, .error e) => (st1, .error e)
  else if fileExistsNow o st target then (st, .ok ())
  else (st, .error (.runtimeError ("voice file missing for " ++ voice_path)))

/-- One iteration of the item loop of `_process_script_groups`.  Returns the
(possibly mutated) item.  (On an error the in-place mutations the Python code
already made to the item are irrelevant: the document is only persisted on
success.) -/
def process_item (o : Oracle) (video_id : String) (opts : JobOptions)
    (group_index item_index : ℕ) (item : ScriptItem) (st : RunSt) :
    RunSt × Except PyErr ScriptItem :=
  let text := pyStrip (item.text.getD "")
  if text = "" then
    (bump_done st, .ok { item with voiceSec := some 0 })
  else
    let voice_path := item_voice_path video_id group_index item_index item
    let item := { item with voice := some voice_path }
    match resolve_voice_file video_id voice_path with
    | .error m => (st, .error (.valueError m))
    | .ok target =>
      match stage_artifact o opts st target text voice_path with
      | (st2, .error e) => (st2, .error e)
      | (st2, .ok _) =>
        match determine_duration o st2 target text with
        | (st3, .error e) => (st3, .error e)
        | (st3, .ok duration) =>
          (bump_done st3, .ok { item with voiceSec := some duration })

/-- The item loop over one group's items (`item_index` is the running index). -/
def process_items (o : Oracle) (video_id : String) (opts : JobOptions)
    (group_index : ℕ) : ℕ → List ScriptItem → RunSt →
    RunSt × Except PyErr (List ScriptItem)
  | _, [], st => (st, .ok [])
  | item_index, item :: rest, st =>
    match process_item o video_id opts group_index item_index item st with
    | (st1, .error e) => (st1, .error e)
    | (st1, .ok item') =>
      match process_items o video_id opts group_index (item_index + 1) rest st1 with
      | (st2, .error e) => (st2, .error e)
      | (st2, .ok rest') => (st2, .ok (item' :: rest'))

/-- The group loop. -/
def process_groups (o : Oracle) (video_id : String) (opts : JobOptions) :
    ℕ → List ScriptGroupDraft → RunSt →
    RunSt × Except PyErr (List ScriptGroupDraft)
  | _, [], st => (st, .ok [])
  | group_index, g :: rest, st =>
    match process_items o video_id opts group_index 0 g.items st with
    | (st1, .error e) => (st1, .error e)
    | (st1, .ok items') =>
      match process_groups o video_id opts (group_index + 1) rest st1 with
      | (st2, .error e) => (st2, .error e)
      | (st2, .ok rest') => (st2, .ok ({ g with items := items' } :: rest'))

/-- `_hook_scene`: the first scene, when it has truthy `text`. -/
def hook_scene (p : ParameterJsonDraft) : Option SceneDraft :=
  match p.scenes with
  | [] => none
  | s :: _ =>
    match s.text with
    | some t => if t = "" then none else some s
    | none => none

/-- `_prepare_scene_audio` (the `volume`/`startFrom` defaults of the fresh
dict are keys the pipeline never reads again and are not modelled). -/
def prepare_scene_audio (scene : SceneDraft) : AudioDict :=
  match scene.audioDesc with
  | .astr s => { src := some (.str s) }
  | .adict d => d
  | .anone => { src := some (.str HOOK_AUDIO_PATH) }

/-- The hook artifact path: the audio descriptor's `src` when it is a truthy
string with non-blank content, else the fixed hook path. -/
def hook_voice_path (scene : SceneDraft) : String :=
  let vp0 : JVal :=
    match (prepare_scene_audio scene).src with
    | some v => if v.isTruthy then v else .str HOOK_AUDIO_PATH
    | none => .str HOOK_AUDIO_PATH
  match vp0 with
  | .str s => if pyStrip s = "" then HOOK_AUDIO_PATH else s
  | _ => HOOK_AUDIO_PATH

/-- The hook-scene tail of `_process_script_groups`. -/
def process_hook (o : Oracle) (video_id : String) (opts : JobOptions)
    (scene : SceneDraft) (st : RunSt) : RunSt × Except PyErr SceneDraft :=
  let text := scene.text.getD ""
  let voice_path := hook_voice_path scene
  let audio_conf := { prepare_scene_audio scene with src := some (.str voice_path) }
  match resolve_voice_file video_id voice_path with
  | .error m => (st, .error (.valueError m))
  | .ok target =>
    match stage_artifact o opts st target (pyStrip text) voice_path with
    | (st2, .error e) => (st2, .error e)
    | (st2, .ok _) =>
      match determine_duration o st2 target text with
      | (st3, .error e) => (st3, .error e)
      | (st3, .ok duration) =>
        let scene' := { scene with
          audioDesc := .adict { audio_conf with durationSec := some (.num duration) } }
        (bump_done st3, .ok scene')

/-- `total_items`: all script items plus one slot for the hook scene. -/
def tts_total (p : ParameterJsonDraft) : ℕ :=
  (p.scriptGroups.map (fun g => g.items.length)).sum +
    (if (hook_scene p).isSome then 1 else 0)

/-- `_process_script_groups`: publish the stage opening, then process every
group in order and the hook scene last, returning the mutated document. -/
def process_script_groups (o : Oracle) (video_id : String)
    (parameter : ParameterJsonDraft) (opts : JobOptions) (st : RunSt) :
    RunSt × Except PyErr ParameterJsonDraft :=
  let total_items := tts_total parameter
  let st := emit { st with done := 0 } (tts_init_update total_items)
  if total_items = 0 then (st, .ok parameter)
  else
    match process_groups o video_id opts 0 parameter.scriptGroups st with
    | (st1, .error e) => (st1, .error e)
    | (st1, .ok groups') =>
      let parameter := { parameter with scriptGroups := groups' }
      match hook_scene parameter with
      | none => (st1, .ok parameter)
      | some scene =>
        match process_hook o video_id opts scene st1 with
        | (st2, .error e) => (st2, .error e)
        | (st2, .ok scene') =>
          (st2, .ok { parameter with scenes := scene' :: parameter.scenes.tail })

/-- `meta.setdefault("videoId", video_id)`. -/
def meta_setdefault (m : MetaDict) (video_id : String) : MetaDict :=
  match m.videoId with
  | some _ => m
  | none => { m with videoId := some (.str video_id) }

/-- The first `_update_job(status=running, progress={"stage": "tts"})`. -/
def running_update : JobUpdate :=
  { status := some .running, progress := some { stage := some "tts" } }

/-- The terminal update of the failure path. -/
def fail_update (e : PyErr) : JobUpdate :=
  { status := some .failed
    error := some { code := "internal_error", message := e.message }
    progress := some { stage := some "failed" } }

/-- The terminal update of the success path. -/
def finish_update (r : JobResult) : JobUpdate :=
  { status := some .done
    result := some r
    progress := some { stage := some "finishing" } }

/-- The result descriptor built on the success path: the persisted document's
location, the hook duration when truthy, and the total duration when
computable and truthy. -/
def run_result (hook_duration : Option ℚ) (parameter : ParameterJsonDraft)
    (param_path : List String) : JobResult :=
  { parameterPath := param_path
    hookSec :=
      match hook_duration with
      | some q => if q = 0 then none else some q
      | none => none
    totalSec := compute_total_sec parameter }

/-- The tail of `_run_job` once the synthesis stage has succeeded:
`param-building` stage, timing resolution, document persistence, optional
render, terminal update. -/
def run_success (o : Oracle) (req : VideoJobRequest) (st1 : RunSt)
    (parameter0 : ParameterJsonDraft) : RunSt :=
  let st2 := emit st1 (stage_update "param-building")
  match compute_scene0_duration parameter0 with
  | (hook_duration, parameter) =>
    match parameter_path req.videoId with
    | .error m => emit st2 (fail_update (.valueError m))
    | .ok param_path =>
      let st3 := { st2 with written := st2.written ++ [param_path]
                            events := st2.events ++ [Event.fsWrite param_path]
                            persisted := some parameter }
      if req.options.render && !req.options.dryRun then
        let st4 := emit st3 (stage_update "rendering")
        match o.render with
        | .error m => emit st4 (fail_update (.runtimeError m))
        | .ok video_path =>
          emit st4 (finish_update
            { run_result hook_duration parameter param_path with
                videoPath := some video_path })
      else emit st3 (finish_update (run_result hook_duration parameter param_path))

/-- `_run_job`, producing the final pipeline state (update trace, effect
trace, persisted document).  The deep copy of the request's parameter
document shows up as the request never being written back.  The render
branch condition includes the render command being configured (the default
configuration has one). -/
def run_job (o : Oracle) (req : VideoJobRequest) : RunSt :=
  let st : RunSt := emit {} running_update
  let parameter :=
    { req.parameter with meta := meta_setdefault req.parameter.meta req.videoId }
  match process_script_groups o req.videoId parameter req.options st with
  | (st1, .error e) => emit st1 (fail_update e)
  | (st1, .ok parameter) => run_success o req st1 parameter

/- Job submission (`create_job`). -/

/-- The record `JobRecord(job_id=..., request=req)` starts from. -/
def initialRecord (job_id : String) (req : VideoJobRequest) : JobRecord :=
  { job_id := job_id, request := req }

structure HttpErr where
  code : ℕ
  detail : String
deriving DecidableEq, Repr

def conflict_error : HttpErr :=
  ⟨409, "videoId already exists. Set overwrite=true to replace."⟩

/-- The output video path checked by the conflict guard (a valid `videoId`
matches `[A-Za-z0-9._-]+` and is a single path segment). -/
def video_out_path (video_id : String) : List String :=
  VIDEO_OUT_DIR ++ [video_id ++ ".mp4"]

/-- `create_job`: the conflict guard, then insertion of a fresh record into
the job store (`fs` is the file-existence predicate, `new_id` the generated
job id).  Returns the store after the request and the response. -/
def create_job (fs : List String → Bool) (jobs : List (String × JobRecord))
    (new_id : String) (req : VideoJobRequest) :
    List (String × JobRecord) × Except HttpErr JobRecord :=
  let guard_result : Option HttpErr :=
    if req.options.overwrite then none
    else
      match parameter_path req.videoId with
      | .error m => some ⟨500, m⟩
      | .ok param_path =>
        if fs param_path || fs (video_out_path req.videoId) then some conflict_error
        else none
  match guard_result with
  | some e => (jobs, .error e)
  | none =>
    (jobs ++ [(new_id, initialRecord new_id req)], .ok (initialRecord new_id req))

/- Spec-side definitions, written from the claims' wording, for the
refinement-style claims. -/

/-- The hook-duration formula as the (amended) claim words it: the sum of
the item contributions, plus the gap applied between consecutive items only,
plus the margin, floored at the minimum. -/
def hook_formula (g : ScriptGroupDraft) : ℚ :=
  max MIN_HOOK_SEC
    ((g.items.map item_contribution).sum +
      g.gapSec.getD 0 * ((g.items.length - 1 : ℕ) : ℚ) + HOOK_MARGIN_SEC)

/-- The scene-0 duration policy as the (amended) claim words it. -/
def scene0_duration_spec (p : ParameterJsonDraft) : Option ℚ :=
  match p.scenes, p.scriptGroups with
  | s0 :: _, g0 :: _ =>
    some (round3 (match stated_hook_duration s0 with
                  | some q => if q = 0 then hook_formula g0 else q
                  | none => hook_formula g0))
  | _, _ => none

/-- The total-duration policy as the claim words it: the rounded sum of the
`durationSec` values of exactly those scenes that have one; when that sum is
unavailable or zero, the `frames / fps` fallback; a zero final value is
omitted. -/
def total_sec_spec (p : ParameterJsonDraft) : Option ℚ :=
  let declared := p.scenes.filterMap SceneDraft.durationSec
  let summed : Option ℚ := if declared.isEmpty then none else some (round3 declared.sum)
  let chosen : Option ℚ :=
    match summed with
    | some t => if t = 0 then fallback_total_sec p summed else summed
    | none => fallback_total_sec p none
  match chosen with
  | some t => if t = 0 then none else some t
  | none => none

/- Auxiliary notions used by the invariant statements, and concrete sample
inputs used by the worked examples and witnesses. -/

/-- Monotone step for an optional counter: once published, the counter may
only grow and is never unpublished. -/
def doneLe : Option ℕ → Option ℕ → Prop
  | none, _ => True
  | some _, none => False
  | some a, some b => a ≤ b

/-- Overwrite the published `ttsDone` counter of a record. -/
def withDone (r : JobRecord) (n : ℕ) : JobRecord :=
  { r with progress := { r.progress with ttsDone := some n } }

/-- An oracle for worked examples: no pre-existing files, TTS always
succeeds, every probe parses a duration of 1 s, render succeeds. -/
def sample_oracle : Oracle :=
  { fileExists0 := fun _ => false
    synth := fun _ => .ok ()
    probe := fun _ => .output (some 1)
    render := .ok ["remotion-out", "abc.mp4"] }

/-- A minimal job request. -/
def sample_request : VideoJobRequest :=
  { videoId := "abc"
    parameter := { spec := {}, meta := {}, scenes := [], scriptGroups := [] } }

/-- A request with one script group (one spoken item, one blank item) and a
hook scene with text. -/
def sample_request2 : VideoJobRequest :=
  { videoId := "abc"
    parameter :=
      { spec := {}
        meta := {}
        scenes := [{ startFrame := 0, text := some "hook line" }]
        scriptGroups :=
          [{ id := "g"
             items := [{ text := some "hello" }, { text := some "  " }] }] } }

/-- The spec's worked example: hook items of 2.0 s and 3.0 s with a 0.5 s
gap (margin 0.8 s). -/
def hook_example_param : ParameterJsonDraft :=
  { spec := {}
    meta := {}
    scenes := [{ startFrame := 0 }]
    scriptGroups :=
      [{ id := "hook"
         gapSec := some (1 / 2)
         items := [{ voiceSec := some 2 }, { voiceSec := some 3 }] }] }

/-- The spec's worked example: hook items summing below the minimum. -/
def hook_min_param : ParameterJsonDraft :=
  { spec := {}
    meta := {}
    scenes := [{ startFrame := 0 }]
    scriptGroups := [{ id := "hook", items := [{ voiceSec := some 1 }] }] }

/-- A first scene whose audio descriptor states a duration of exactly 0,
over a hook group with a 5 s item. -/
def hook_zero_stated_param : ParameterJsonDraft :=
  { spec := {}
    meta := {}
    scenes := [{ startFrame := 0, audioDesc := .adict { durationSec := some (.num 0) } }]
    scriptGroups := [{ id := "hook", items := [{ voiceSec := some 5 }] }] }

/-- The spec's worked example: scene durations 6.3, 10.0 and 8.2. -/
def total_example_param : ParameterJsonDraft :=
  { spec := {}
    meta := {}
    scenes :=
      [{ startFrame := 0, durationSec := some (63 / 10) },
       { startFrame := 0, durationSec := some 10 },
       { startFrame := 0, durationSec := some (41 / 5) }]
    scriptGroups := [] }

/-! ### Helper lemmas -/

theorem dropWhile_eq_self_of {p : Char → Bool} :
    ∀ {l : List Char}, (∀ c ∈ l, p c = false) → l.dropWhile p = l
  | [], _ => rfl
  | c :: l, h => by
    have hc : p c = false := h c (List.mem_cons_self c l)
    simp [List.dropWhile_cons, hc]

theorem pyStrip_eq_self {s : String} (h : ∀ c ∈ s.data, c.isWhitespace = false) :
    pyStrip s = s := by
  unfold pyStrip
  rw [dropWhile_eq_self_of h,
    dropWhile_eq_self_of (fun c hc => h c (List.mem_reverse.mp hc)),
    List.reverse_reverse]

theorem prefix_slash_align {a b r r' : List Char}
    (ha : '/' ∉ a) (hb : '/' ∉ b)
    (h : (a ++ '/' :: r) <+: (b ++ '/' :: r')) : a = b ∧ r <+: r' := by
  induction a generalizing b with
  | nil =>
    cases b with
    | nil => simpa using h
    | cons c bs =>
      rw [List.nil_append, List.cons_append, List.cons_prefix_cons] at h
      exact absurd (h.1 ▸ List.mem_cons_self c bs) hb
  | cons x xs ih =>
    cases b with
    | nil =>
      rw [List.cons_append, List.nil_append, List.cons_prefix_cons] at h
      exact absurd (h.1 ▸ List.mem_cons_self x xs) ha
    | cons c bs =>
      rw [List.cons_append, List.cons_append, List.cons_prefix_cons] at h
      have hrec := ih (fun hx => ha (List.mem_cons_of_mem x hx))
        (fun hx => hb (List.mem_cons_of_mem c hx)) h.2
      exact ⟨by rw [h.1, hrec.1], hrec.2⟩

theorem sum_filter_ne_zero : ∀ l : List ℚ, (l.filter (fun q => q != 0)).sum = l.sum
  | [] => rfl
  | q :: l => by
    by_cases hq : q = 0 <;>
      simp [List.filter_cons, hq, sum_filter_ne_zero l]

theorem sum_eq_zero_of_filter_nil :
    ∀ {l : List ℚ}, l.filter (fun q => q != 0) = [] → l.sum = 0
  | [], _ => rfl
  | q :: l, h => by
    by_cases hq : q = 0
    · rw [List.filter_cons] at h
      simp only [hq, bne_self_eq_false, cond_false] at h
      simp [hq, sum_eq_zero_of_filter_nil h]
    · rw [List.filter_cons] at h
      simp [hq] at h

theorem sum_with_gaps_eq (gap : ℚ) :
    ∀ l : List ScriptItem,
      sum_with_gaps gap l =
        (l.map item_contribution).sum + gap * ((l.length - 1 : ℕ) : ℚ)
  | [] => by simp [sum_with_gaps]
  | [it] => by simp [sum_with_gaps]
  | it :: it2 :: rest => by
    have ih := sum_with_gaps_eq gap (it2 :: rest)
    rw [show sum_with_gaps gap (it :: it2 :: rest) =
          item_contribution it + gap + sum_with_gaps gap (it2 :: rest) from rfl, ih]
    simp only [List.map_cons, List.sum_cons, List.length_cons, Nat.succ_sub_one]
    push_cast
    ring

theorem safe_join_ok (base : List String) (rel : String) :
    safe_join base rel = .ok (base ++ rel_segments rel) := by
  simp [safe_join]

theorem rel_segments_sanitised {rel : String} :
    ∀ seg ∈ rel_segments rel, seg ≠ "" ∧ seg ≠ "." ∧ seg ≠ ".." := by
  intro seg hseg
  have := List.of_mem_filter hseg
  simp only [Bool.and_eq_true, bne_iff_ne, ne_eq] at this
  exact ⟨this.1.1, this.1.2, this.2⟩

theorem parameter_path_ok (video_id : String) :
    parameter_path video_id =
      .ok (PROJECTS_ROOT ++ rel_segments (pyStrip (param_template video_id))) :=
  safe_join_ok _ _

/-! ### Emission shape of the pipeline -/

theorem synthesize_voice_ud (o : Oracle) (st : RunSt) (t : String) :
    ((synthesize_voice o st t).1).updates = st.updates ∧
    ((synthesize_voice o st t).1).done = st.done ∧
    ((synthesize_voice o st t).1).persisted = st.persisted := by
  unfold synthesize_voice
  cases o.synth st.synthCalls <;> simp

theorem stage_artifact_ud (o : Oracle) (opts : JobOptions) (st : RunSt)
    (target : List String) (synth_text voice_path : String) :
    ((stage_artifact o opts st target synth_text voice_path).1).updates = st.updates ∧
    ((stage_artifact o opts st target synth_text voice_path).1).done = st.done ∧
    ((stage_artifact o opts st target synth_text voice_path).1).persisted = st.persisted := by
  unfold stage_artifact
  have hs := synthesize_voice_ud o st synth_text
  by_cases hg : opts.audioGen
  · rw [if_pos hg]
    rcases hsy : synthesize_voice o st synth_text with ⟨st1, r1⟩
    rw [hsy] at hs
    rcases r1 with e | u
    · simpa using hs
    · simpa [record_write] using hs
  · rw [if_neg hg]
    by_cases hf : fileExistsNow o st target
    · simp [hf]
    · simp [hf]

theorem probe_audio_duration_ud (o : Oracle) (st : RunSt) (p : List String) :
    ((probe_audio_duration o st p).1).updates = st.updates ∧
    ((probe_audio_duration o st p).1).done = st.done ∧
    ((probe_audio_duration o st p).1).persisted = st.persisted := by
  unfold probe_audio_duration
  by_cases hf : fileExistsNow o st p
  · rw [if_pos hf]
    rcases o.probe st.probeCalls with m | op
    · simp
    · cases op <;> simp
  · rw [if_neg hf]
    exact ⟨rfl, rfl, rfl⟩

theorem determine_duration_ud (o : Oracle) (st : RunSt) (target : List String)
    (text : String) :
    ((determine_duration o st target text).1).updates = st.updates ∧
    ((determine_duration o st target text).1).done = st.done ∧
    ((determine_duration o st target text).1).persisted = st.persisted := by
  unfold determine_duration
  have hp := probe_audio_duration_ud o st target
  rcases hpr : probe_audio_duration o st target with ⟨st1, r⟩
  rw [hpr] at hp
  rcases r with e | d
  · rcases e with pp | m | m | m <;> simpa using hp
  · simpa using hp

theorem process_item_shape {o : Oracle} {video_id : String} {opts : JobOptions}
    {group_index item_index : ℕ} {item : ScriptItem} {st st' : RunSt}
    {r : Except PyErr ScriptItem}
    (h : process_item o video_id opts group_index item_index item st = (st', r)) :
    st'.persisted = st.persisted ∧
    ((∃ x, r = .ok x) →
      st'.updates = st.updates ++ [tts_done_update (st.done + 1)] ∧
      st'.done = st.done + 1) ∧
    ((∃ e, r = .error e) → st'.updates = st.updates ∧ st'.done = st.done) := by
  unfold process_item at h
  by_cases ht : pyStrip (item.text.getD "") = ""
  · rw [if_pos ht] at h
    injection h with h1 h2
    subst h1; subst h2
    refine ⟨rfl, fun _ => ⟨rfl, rfl⟩, fun he => ?_⟩
    obtain ⟨e, he⟩ := he
    exact absurd he (by simp)
  · rw [if_neg ht] at h
    rcases hres : resolve_voice_file video_id
        (item_voice_path video_id group_index item_index item) with m | target
    · simp only [hres] at h
      injection h with h1 h2
      subst h1; subst h2
      refine ⟨rfl, fun hx => ?_, fun _ => ⟨rfl, rfl⟩⟩
      obtain ⟨x, hx⟩ := hx
      exact absurd hx (by simp)
    · simp only [hres] at h
      have hsa := stage_artifact_ud o opts st target
        (pyStrip (item.text.getD "")) (item_voice_path video_id group_index item_index item)
      rcases hst : stage_artifact o opts st target
          (pyStrip (item.text.getD ""))
          (item_voice_path video_id group_index item_index item) with ⟨st2, r2⟩
      rw [hst] at hsa
      simp only [hst] at h
      rcases r2 with e | u
      · injection h with h1 h2
        subst h1; subst h2
        refine ⟨hsa.2.2, fun hx => ?_, fun _ => ⟨hsa.1, hsa.2.1⟩⟩
        obtain ⟨x, hx⟩ := hx
        exact absurd hx (by simp)
      · have hdd := determine_duration_ud o st2 target (pyStrip (item.text.getD ""))
        rcases hdt : determine_duration o st2 target
            (pyStrip (item.text.getD "")) with ⟨st3, r3⟩
        rw [hdt] at hdd
        simp only [hdt] at h
        rcases r3 with e | d
        · injection h with h1 h2
          subst h1; subst h2
          refine ⟨?_, fun hx => ?_, fun _ => ⟨?_, ?_⟩⟩
          · rw [hdd.2.2, hsa.2.2]
          · obtain ⟨x, hx⟩ := hx
            exact absurd hx (by simp)
          · rw [hdd.1, hsa.1]
          · rw [hdd.2.1, hsa.2.1]
        · injection h with h1 h2
          subst h1; subst h2
          refine ⟨?_, fun _ => ⟨?_, ?_⟩, fun he => ?_⟩
          · show (bump_done st3).persisted = st.persisted
            rw [show (bump_done st3).persisted = st3.persisted from rfl, hdd.2.2, hsa.2.2]
          · show (bump_done st3).updates = st.updates ++ [tts_done_update (st.done + 1)]
            rw [show (bump_done st3).updates =
                  st3.updates ++ [tts_done_update (st3.done + 1)] from rfl,
              hdd.1, hsa.1, hdd.2.1, hsa.2.1]
          · show (bump_done st3).done = st.done + 1
            rw [show (bump_done st3).done = st3.done + 1 from rfl, hdd.2.1, hsa.2.1]
          · obtain ⟨e, he⟩ := he
            exact absurd he (by simp)

theorem process_hook_shape {o : Oracle} {video_id : String} {opts : JobOptions}
    {scene : SceneDraft} {st st' : RunSt} {r : Except PyErr SceneDraft}
    (h : process_hook o video_id opts scene st = (st', r)) :
    st'.persisted = st.persisted ∧
    ((∃ x, r = .ok x) →
      st'.updates = st.updates ++ [tts_done_update (st.done + 1)] ∧
      st'.done = st.done + 1) ∧
    ((∃ e, r = .error e) → st'.updates = st.updates ∧ st'.done = st.done) := by
  unfold process_hook at h
  rcases hres : resolve_voice_file video_id (hook_voice_path scene) with m | target
  · simp only [hres] at h
    injection h with h1 h2
    subst h1; subst h2
    refine ⟨rfl, fun hx => ?_, fun _ => ⟨rfl, rfl⟩⟩
    obtain ⟨x, hx⟩ := hx
    exact absurd hx (by simp)
  · simp only [hres] at h
    have hsa := stage_artifact_ud o opts st target
      (pyStrip (scene.text.getD "")) (hook_voice_path scene)
    rcases hst : stage_artifact o opts st target
        (pyStrip (scene.text.getD "")) (hook_voice_path scene) with ⟨st2, r2⟩
    rw [hst] at hsa
    simp only [hst] at h
    rcases r2 with e | u
    · injection h with h1 h2
      subst h1; subst h2
      refine ⟨hsa.2.2, fun hx => ?_, fun _ => ⟨hsa.1, hsa.2.1⟩⟩
      obtain ⟨x, hx⟩ := hx
      exact absurd hx (by simp)
    · have hdd := determine_duration_ud o st2 target (scene.text.getD "")
      rcases hdt : determine_duration o st2 target (scene.text.getD "") with ⟨st3, r3⟩
      rw [hdt] at hdd
      simp only [hdt] at h
      rcases r3 with e | d
      · injection h with h1 h2
        subst h1; subst h2
        refine ⟨?_, fun hx => ?_, fun _ => ⟨?_, ?_⟩⟩
        · rw [hdd.2.2, hsa.2.2]
        · obtain ⟨x, hx⟩ := hx
          exact absurd hx (by simp)
        · rw [hdd.1, hsa.1]
        · rw [hdd.2.1, hsa.2.1]
      · injection h with h1 h2
        subst h1; subst h2
        refine ⟨?_, fun _ => ⟨?_, ?_⟩, fun he => ?_⟩
        · show (bump_done st3).persisted = st.persisted
          rw [show (bump_done st3).persisted = st3.persisted from rfl, hdd.2.2, hsa.2.2]
        · show (bump_done st3).updates = st.updates ++ [tts_done_update (st.done + 1)]
          rw [show (bump_done st3).updates =
                st3.updates ++ [tts_done_update (st3.done + 1)] from rfl,
            hdd.1, hsa.1, hdd.2.1, hsa.2.1]
        · show (bump_done st3).done = st.done + 1
          rw [show (bump_done st3).done = st3.done + 1 from rfl, hdd.2.1, hsa.2.1]
        · obtain ⟨e, he⟩ := he
          exact absurd he (by simp)

theorem process_items_shape {o : Oracle} {video_id : String} {opts : JobOptions}
    {group_index : ℕ} :
    ∀ {l : List ScriptItem} {item_index : ℕ} {st st' : RunSt}
      {r : Except PyErr (List ScriptItem)},
      process_items o video_id opts group_index item_index l st = (st', r) →
      ∃ k ≤ l.length,
        st'.updates = st.updates ++ (List.range' (st.done + 1) k).map tts_done_update ∧
        st'.done = st.done + k ∧ st'.persisted = st.persisted := by
  intro l
  induction l with
  | nil =>
    intro item_index st st' r h
    unfold process_items at h
    injection h with h1 h2
    subst h1
    exact ⟨0, by simp⟩
  | cons item rest ih =>
    intro item_index st st' r h
    unfold process_items at h
    rcases hpi : process_item o video_id opts group_index item_index item st with ⟨st1, r1⟩
    have hsh := process_item_shape hpi
    simp only [hpi] at h
    rcases r1 with e | it'
    · injection h with h1 h2
      subst h1
      obtain ⟨hu, hd⟩ := hsh.2.2 ⟨e, rfl⟩
      exact ⟨0, by simp [hu, hd, hsh.1]⟩
    · obtain ⟨hu1, hd1⟩ := hsh.2.1 ⟨it', rfl⟩
      rcases hrec : process_items o video_id opts group_index (item_index + 1) rest st1
        with ⟨st2, r2⟩
      obtain ⟨k2, hk2, hups2, hdone2, hpers2⟩ := ih hrec
      simp only [hrec] at h
      have hups : st2.updates =
          st.updates ++ (List.range' (st.done + 1) (k2 + 1)).map tts_done_update := by
        rw [hups2, hu1, hd1]
        rw [List.append_assoc]
        congr 1
      have hdone : st2.done = st.done + (k2 + 1) := by omega
      have hpers : st2.persisted = st.persisted := by rw [hpers2, hsh.1]
      have hk : k2 + 1 ≤ (item :: rest).length := by
        simp only [List.length_cons]
        omega
      rcases r2 with e | rest'
      · injection h with h1 h2
        subst h1
        exact ⟨k2 + 1, hk, hups, hdone, hpers⟩
      · injection h with h1 h2
        subst h1
        exact ⟨k2 + 1, hk, hups, hdone, hpers⟩

theorem process_groups_shape {o : Oracle} {video_id : String} {opts : JobOptions} :
    ∀ {l : List ScriptGroupDraft} {group_index : ℕ} {st st' : RunSt}
      {r : Except PyErr (List ScriptGroupDraft)},
      process_groups o video_id opts group_index l st = (st', r) →
      ∃ k ≤ (l.map (fun g => g.items.length)).sum,
        st'.updates = st.updates ++ (List.range' (st.done + 1) k).map tts_done_update ∧
        st'.done = st.done + k ∧ st'.persisted = st.persisted := by
  intro l
  induction l with
  | nil =>
    intro group_index st st' r h
    unfold process_groups at h
    injection h with h1 h2
    subst h1
    exact ⟨0, by simp⟩
  | cons g rest ih =>
    intro group_index st st' r h
    unfold process_groups at h
    rcases hpi : process_items o video_id opts group_index 0 g.items st with ⟨st1, r1⟩
    obtain ⟨k1, hk1, hups1, hdone1, hpers1⟩ := process_items_shape hpi
    simp only [hpi] at h
    rcases r1 with e | items'
    · injection h with h1 h2
      subst h1
      refine ⟨k1, ?_, hups1, hdone1, hpers1⟩
      simp only [List.map_cons, List.sum_cons]
      omega
    · rcases hrec : process_groups o video_id opts (group_index + 1) rest st1
        with ⟨st2, r2⟩
      obtain ⟨k2, hk2, hups2, hdone2, hpers2⟩ := ih hrec
      simp only [hrec] at h
      have hups : st2.updates =
          st.updates ++ (List.range' (st.done + 1) (k2 + k1)).map tts_done_update := by
        rw [hups2, hups1, hdone1]
        rw [List.append_assoc, ← List.map_append]
        congr 2
        have := List.range'_append_1 (st.done + 1) k1 k2
        rw [show st.done + k1 + 1 = st.done + 1 + k1 by omega]
        exact this
      have hdone : st2.done = st.done + (k2 + k1) := by omega
      have hpers : st2.persisted = st.persisted := by rw [hpers2, hpers1]
      have hk : k2 + k1 ≤ ((g :: rest).map (fun g => g.items.length)).sum := by
        simp only [List.map_cons, List.sum_cons]
        omega
      rcases r2 with e | rest'
      · injection h with h1 h2
        subst h1
        exact ⟨k2 + k1, hk, hups, hdone, hpers⟩
      · injection h with h1 h2
        subst h1
        exact ⟨k2 + k1, hk, hups, hdone, hpers⟩

theorem hook_scene_set_groups (p : ParameterJsonDraft) (gs : List ScriptGroupDraft) :
    hook_scene { p with scriptGroups := gs } = hook_scene p := rfl

theorem tts_total_set_meta (p : ParameterJsonDraft) (m : MetaDict) :
    tts_total { p with meta := m } = tts_total p := rfl

theorem range'_map_snoc (f : ℕ → JobUpdate) (s k : ℕ) :
    (List.range' s k).map f ++ [f (s + k)] = (List.range' s (k + 1)).map f := by
  rw [show k + 1 = 1 + k from Nat.add_comm k 1, ← List.range'_append_1 s k 1]
  simp

theorem process_script_groups_shape {o : Oracle} {video_id : String}
    {parameter : ParameterJsonDraft} {opts : JobOptions} {st st' : RunSt}
    {r : Except PyErr ParameterJsonDraft}
    (h : process_script_groups o video_id parameter opts st = (st', r)) :
    ∃ k ≤ tts_total parameter,
      st'.updates = st.updates ++
        (tts_init_update (tts_total parameter) ::
          (List.range' 1 k).map tts_done_update) ∧
      st'.done = k ∧ st'.persisted = st.persisted := by
  unfold process_script_groups at h
  by_cases h0 : tts_total parameter = 0
  · rw [if_pos h0] at h
    injection h with h1 h2
    subst h1
    refine ⟨0, Nat.le_refl _ |>.trans (by omega), ?_, rfl, rfl⟩
    simp [emit]
  · rw [if_neg h0] at h
    rcases hpg : process_groups o video_id opts 0 parameter.scriptGroups
        (emit { st with done := 0 } (tts_init_update (tts_total parameter)))
      with ⟨st1, r1⟩
    obtain ⟨k1, hk1, hups1, hdone1, hpers1⟩ := process_groups_shape hpg
    have hbase : (emit { st with done := 0 } (tts_init_update (tts_total parameter))).updates
        = st.updates ++ [tts_init_update (tts_total parameter)] := rfl
    have hbased : (emit { st with done := 0 } (tts_init_update (tts_total parameter))).done
        = 0 := rfl
    have hk1T : k1 ≤ tts_total parameter := by
      unfold tts_total
      omega
    rw [hbase, hbased] at hups1
    rw [hbased] at hdone1
    simp only [hpg] at h
    rcases r1 with e | groups'
    · injection h with h1 h2
      subst h1
      refine ⟨k1, hk1T, ?_, by omega, hpers1⟩
      rw [hups1, List.append_assoc]
      rfl
    · have hmk : hook_scene
          { spec := parameter.spec
            meta := parameter.meta
            scenes := parameter.scenes
            scriptGroups := groups' } = hook_scene parameter := rfl
      simp only [hmk] at h
      rcases hhs : hook_scene parameter with _ | scene
      · simp only [hhs] at h
        injection h with h1 h2
        subst h1
        refine ⟨k1, hk1T, ?_, by omega, hpers1⟩
        rw [hups1, List.append_assoc]
        rfl
      · simp only [hhs] at h
        rcases hph : process_hook o video_id opts scene st1 with ⟨st2, r2⟩
        have hsh := process_hook_shape hph
        simp only [hph] at h
        rcases r2 with e | scene'
        · obtain ⟨hu, hd⟩ := hsh.2.2 ⟨e, rfl⟩
          injection h with h1 h2
          subst h1
          refine ⟨k1, hk1T, ?_, by omega, by rw [hsh.1]; exact hpers1⟩
          rw [hu, hups1, List.append_assoc]
          rfl
        · obtain ⟨hu, hd⟩ := hsh.2.1 ⟨scene', rfl⟩
          injection h with h1 h2
          subst h1
          have hT : k1 + 1 ≤ tts_total parameter := by
            unfold tts_total
            rw [hhs]
            simp only [Option.isSome_some, if_pos]
            omega
          refine ⟨k1 + 1, hT, ?_, by omega, by rw [hsh.1]; exact hpers1⟩
          rw [hu, hups1, hdone1]
          rw [List.append_assoc, List.append_assoc]
          congr 1
          rw [List.singleton_append]
          congr 1
          rw [show (0 : ℕ) + 1 = 1 from rfl, show 0 + k1 + 1 = 1 + k1 by omega]
          exact range'_map_snoc tts_done_update 1 k1

theorem run_success_shape (o : Oracle) (req : VideoJobRequest) (st1 : RunSt)
    (parameter0 : ParameterJsonDraft) :
    ∃ (tail : List JobUpdate) (term : JobUpdate),
      (run_success o req st1 parameter0).updates = st1.updates ++ (tail ++ [term]) ∧
      (∀ u ∈ tail, ∃ s, u = stage_update s) ∧
      ((∃ res, term = finish_update res) ∨ (∃ e, term = fail_update e)) := by
  unfold run_success
  rcases hcs : compute_scene0_duration parameter0 with ⟨hook_duration, parameter⟩
  simp only [hcs, parameter_path_ok]
  by_cases hr : req.options.render && !req.options.dryRun
  · rw [if_pos hr]
    rcases hrnd : o.render with m | video_path
    · refine ⟨[stage_update "param-building", stage_update "rendering"],
        fail_update (.runtimeError m), ?_, ?_, Or.inr ⟨_, rfl⟩⟩
      · simp [emit]
      · intro u hu
        simp only [List.mem_cons, List.not_mem_nil, or_false] at hu
        rcases hu with h | h
        · exact ⟨_, h⟩
        · exact ⟨_, h⟩
    · refine ⟨[stage_update "param-building", stage_update "rendering"],
        finish_update
          { run_result hook_duration parameter
              (PROJECTS_ROOT ++ rel_segments (pyStrip (param_template req.videoId))) with
            videoPath := some video_path },
        ?_, ?_, Or.inl ⟨_, rfl⟩⟩
      · simp [emit]
      · intro u hu
        simp only [List.mem_cons, List.not_mem_nil, or_false] at hu
        rcases hu with h | h
        · exact ⟨_, h⟩
        · exact ⟨_, h⟩
  · rw [if_neg hr]
    refine ⟨[stage_update "param-building"],
      finish_update (run_result hook_duration parameter
        (PROJECTS_ROOT ++ rel_segments (pyStrip (param_template req.videoId)))),
      ?_, ?_, Or.inl ⟨_, rfl⟩⟩
    · simp [emit]
    · intro u hu
      simp only [List.mem_cons, List.not_mem_nil, or_false] at hu
      exact ⟨_, hu⟩

theorem run_job_shape (o : Oracle) (req : VideoJobRequest) :
    ∃ (k : ℕ) (tail : List JobUpdate) (term : JobUpdate),
      (run_job o req).updates =
        running_update :: tts_init_update (tts_total req.parameter) ::
          ((List.range' 1 k).map tts_done_update ++ (tail ++ [term])) ∧
      k ≤ tts_total req.parameter ∧
      (∀ u ∈ tail, ∃ s, u = stage_update s) ∧
      ((∃ res, term = finish_update res) ∨ (∃ e, term = fail_update e)) := by
  unfold run_job
  rcases hpsg : process_script_groups o req.videoId
      { req.parameter with meta := meta_setdefault req.parameter.meta req.videoId }
      req.options (emit {} running_update) with ⟨st1, r1⟩
  obtain ⟨k, hk, hups, _, _⟩ := process_script_groups_shape hpsg
  have hTT : tts_total
      { req.parameter with meta := meta_setdefault req.parameter.meta req.videoId } =
      tts_total req.parameter := rfl
  rw [hTT] at hups hk
  have hbase : (emit ({} : RunSt) running_update).updates = [running_update] := rfl
  rw [hbase] at hups
  simp only [hpsg]
  rcases r1 with e | parameter'
  · refine ⟨k, [], fail_update e, ?_, hk, by simp, Or.inr ⟨_, rfl⟩⟩
    show (emit st1 (fail_update e)).updates = _
    rw [show (emit st1 (fail_update e)).updates = st1.updates ++ [fail_update e] from rfl,
      hups]
    simp
  · obtain ⟨tail, term, hups2, htail, hterm⟩ := run_success_shape o req st1 parameter'
    refine ⟨k, tail, term, ?_, hk, htail, hterm⟩
    show (run_success o req st1 parameter').updates = _
    rw [hups2, hups]
    simp

/-! ### Job-record snapshot machinery -/

theorem applyUpdate_request (r : JobRecord) (u : JobUpdate) :
    (applyUpdate r u).request = r.request := by
  rcases u with ⟨us, up, ur, ue⟩
  cases us <;> cases up <;> cases ur <;> cases ue <;>
    (dsimp only [applyUpdate]) <;> (try split) <;> rfl

theorem applyUpdate_status (r : JobRecord) (u : JobUpdate) :
    (applyUpdate r u).status =
      (match u.status with | some s => s | none => r.status) := by
  rcases u with ⟨us, up, ur, ue⟩
  cases us <;> cases up <;> cases ur <;> cases ue <;>
    (dsimp only [applyUpdate]) <;> (try split) <;> rfl

theorem applyUpdate_result (r : JobRecord) (u : JobUpdate) :
    (applyUpdate r u).result =
      (match u.result with | some x => some x | none => r.result) := by
  rcases u with ⟨us, up, ur, ue⟩
  cases us <;> cases up <;> cases ur <;> cases ue <;>
    (dsimp only [applyUpdate]) <;> (try split) <;> rfl

theorem applyUpdate_error (r : JobRecord) (u : JobUpdate) :
    (applyUpdate r u).error =
      (match u.error with | some x => some x | none => r.error) := by
  rcases u with ⟨us, up, ur, ue⟩
  cases us <;> cases up <;> cases ur <;> cases ue <;>
    (dsimp only [applyUpdate]) <;> (try split) <;> rfl

theorem applyUpdate_progress (r : JobRecord) (u : JobUpdate) :
    (applyUpdate r u).progress =
      (match u.progress with
       | some p => if p.isEmptyDict then r.progress else r.progress.merge p
       | none => r.progress) := by
  rcases u with ⟨us, up, ur, ue⟩
  cases us <;> cases up <;> cases ur <;> cases ue <;>
    (dsimp only [applyUpdate]) <;> (try split) <;> rfl

theorem applyUpdate_counters (r : JobRecord) {u : JobUpdate}
    (hu : ∀ p, u.progress = some p → p.ttsTotal = none ∧ p.ttsDone = none) :
    (applyUpdate r u).progress.ttsDone = r.progress.ttsDone ∧
    (applyUpdate r u).progress.ttsTotal = r.progress.ttsTotal := by
  have hprog := applyUpdate_progress r u
  rcases hp : u.progress with _ | p
  · rw [hp] at hprog
    rw [hprog]
    exact ⟨rfl, rfl⟩
  · obtain ⟨ht, hd⟩ := hu p hp
    rw [hp] at hprog
    simp only [] at hprog
    by_cases he : p.isEmptyDict
    · rw [hprog, if_pos he]
      exact ⟨rfl, rfl⟩
    · rw [hprog, if_neg he]
      unfold Progress.merge
      rw [ht, hd]
      exact ⟨rfl, rfl⟩

theorem snapshots_ne_nil (r : JobRecord) (us : List JobUpdate) :
    snapshots r us ≠ [] := by
  cases us <;> simp [snapshots]

theorem snapshots_head (r : JobRecord) (us : List JobUpdate) :
    (snapshots r us).head? = some r := by
  cases us <;> rfl

theorem snapshots_append : ∀ (us vs : List JobUpdate) (r : JobRecord),
    snapshots r (us ++ vs) =
      (snapshots r us).dropLast ++ snapshots (us.foldl applyUpdate r) vs
  | [], vs, r => by simp [snapshots]
  | u :: us, vs, r => by
    rw [List.cons_append]
    show r :: snapshots (applyUpdate r u) (us ++ vs) =
      (r :: snapshots (applyUpdate r u) us).dropLast ++
        snapshots (us.foldl applyUpdate (applyUpdate r u)) vs
    rw [snapshots_append us vs (applyUpdate r u)]
    rcases hsn : snapshots (applyUpdate r u) us with _ | ⟨x, xs⟩
    · exact absurd hsn (snapshots_ne_nil _ _)
    · simp [List.dropLast_cons₂]

theorem snapshots_getLast? : ∀ (us : List JobUpdate) (r : JobRecord),
    (snapshots r us).getLast? = some (us.foldl applyUpdate r)
  | [], _ => rfl
  | u :: us, r => by
    simp only [snapshots, List.foldl_cons]
    rw [← snapshots_getLast? us (applyUpdate r u)]
    rcases hsn : snapshots (applyUpdate r u) us with _ | ⟨x, xs⟩
    · exact absurd hsn (snapshots_ne_nil _ _)
    · simp [List.getLast?_cons_cons]

theorem foldl_mem_snapshots : ∀ (us : List JobUpdate) (r : JobRecord),
    us.foldl applyUpdate r ∈ snapshots r us
  | [], r => by simp [snapshots]
  | u :: us, r => by
    simp only [snapshots, List.foldl_cons, List.mem_cons]
    exact Or.inr (foldl_mem_snapshots us (applyUpdate r u))

theorem snapshots_request : ∀ (us : List JobUpdate) (r : JobRecord),
    ∀ s ∈ snapshots r us, s.request = r.request
  | [], r => by simp [snapshots]
  | u :: us, r => by
    intro s hs
    rcases List.mem_cons.mp hs with h | h
    · rw [h]
    · rw [snapshots_request us (applyUpdate r u) s h, applyUpdate_request]

theorem snapshots_keep_result_error : ∀ (us : List JobUpdate) (r : JobRecord),
    (∀ u ∈ us, u.result = none ∧ u.error = none) →
    r.result = none → r.error = none →
    ∀ s ∈ snapshots r us, s.result = none ∧ s.error = none
  | [], r, _, hr, he => by
    intro s hs
    simp only [snapshots, List.mem_singleton] at hs
    rw [hs]
    exact ⟨hr, he⟩
  | u :: us, r, hu, hr, he => by
    intro s hs
    rcases List.mem_cons.mp hs with h | h
    · rw [h]; exact ⟨hr, he⟩
    · obtain ⟨hur, hue⟩ := hu u (List.mem_cons_self u us)
      refine snapshots_keep_result_error us (applyUpdate r u)
        (fun v hv => hu v (List.mem_cons_of_mem u hv)) ?_ ?_ s h
      · rw [applyUpdate_result, hur, hr]
      · rw [applyUpdate_error, hue, he]

theorem chain'_glue {α : Type} {R : α → α → Prop} {A B : List α}
    (hA : List.Chain' R A) (hB : List.Chain' R B)
    (hab : A.getLast? = B.head?) : List.Chain' R (A.dropLast ++ B) := by
  rcases List.eq_nil_or_concat A with rfl | ⟨A0, a, rfl⟩
  · simpa using hB
  · rw [List.concat_eq_append] at hA hab ⊢
    rw [List.dropLast_concat]
    have ha : B.head? = some a := by rw [← hab, List.getLast?_concat]
    rw [List.chain'_append]
    refine ⟨(List.chain'_append.mp hA).1, hB, ?_⟩
    intro x hx y hy
    have hy' : a = y := by
      rw [ha] at hy
      exact (Option.mem_some_iff.mp hy)
    subst hy'
    exact (List.chain'_append.mp hA).2.2 x hx a (by simp)

theorem doneLe_refl (x : Option ℕ) : doneLe x x := by
  cases x <;> simp [doneLe]

theorem withDone_self {r : JobRecord} {a : ℕ} (h : r.progress.ttsDone = some a) :
    withDone r a = r := by
  rcases r with ⟨ji, rq, stt, pg, rs, er⟩
  rcases pg with ⟨sg, tt, td⟩
  simp only [withDone]
  simp only [] at h
  rw [← h]

theorem applyUpdate_tdu (r : JobRecord) (n : ℕ) :
    applyUpdate r (tts_done_update n) = withDone r n := rfl

theorem snapshots_done_run (T : ℕ) :
    ∀ (k a : ℕ) (r : JobRecord),
      r.progress.ttsDone = some a → r.progress.ttsTotal = some T → a + k ≤ T →
      (∀ s ∈ snapshots r ((List.range' (a + 1) k).map tts_done_update),
          ∃ d, s.progress.ttsDone = some d ∧ d ≤ T ∧ s.progress.ttsTotal = some T) ∧
      List.Chain' (fun s₁ s₂ => doneLe s₁.progress.ttsDone s₂.progress.ttsDone)
        (snapshots r ((List.range' (a + 1) k).map tts_done_update)) ∧
      ((List.range' (a + 1) k).map tts_done_update).foldl applyUpdate r =
        withDone r (a + k)
  | 0, a, r => by
    intro hd ht hak
    refine ⟨?_, ?_, ?_⟩
    · intro s hs
      simp only [List.range'_zero, List.map_nil, snapshots, List.mem_singleton] at hs
      exact ⟨a, by rw [hs]; exact hd, by omega, by rw [hs]; exact ht⟩
    · simp [snapshots]
    · simp only [List.range'_zero, List.map_nil, List.foldl_nil, Nat.add_zero]
      exact (withDone_self hd).symm
  | k + 1, a, r => by
    intro hd ht hak
    have hstep : applyUpdate r (tts_done_update (a + 1)) = withDone r (a + 1) :=
      applyUpdate_tdu r (a + 1)
    have hd' : (withDone r (a + 1)).progress.ttsDone = some (a + 1) := rfl
    have ht' : (withDone r (a + 1)).progress.ttsTotal = some T := ht
    have hrange : List.range' (a + 1) (k + 1) = (a + 1) :: List.range' (a + 2) k :=
      List.range'_succ (a + 1) k 1
    obtain ⟨ihmem, ihchain, ihfold⟩ :=
      snapshots_done_run T k (a + 1) (withDone r (a + 1)) hd' ht' (by omega)
    have hsnap : snapshots r ((List.range' (a + 1) (k + 1)).map tts_done_update) =
        r :: snapshots (withDone r (a + 1)) ((List.range' (a + 2) k).map tts_done_update) := by
      rw [hrange]
      simp only [List.map_cons, snapshots, hstep]
    refine ⟨?_, ?_, ?_⟩
    · intro s hs
      rw [hsnap] at hs
      rcases List.mem_cons.mp hs with h | h
      · exact ⟨a, by rw [h]; exact hd, by omega, by rw [h]; exact ht⟩
      · exact ihmem s (by simpa using h)
    · rw [hsnap]
      rw [List.chain'_cons']
      constructor
      · intro y hy
        rw [snapshots_head] at hy
        have hy' : withDone r (a + 1) = y := Option.mem_some_iff.mp hy
        rw [← hy', hd, hd']
        simp [doneLe]
      · simpa using ihchain
    · rw [hrange]
      simp only [List.map_cons, List.foldl_cons, hstep]
      have : (a + 1) + k = a + (k + 1) := by omega
      rw [show ((List.range' (a + 2) k).map tts_done_update).foldl applyUpdate
            (withDone r (a + 1)) = withDone (withDone r (a + 1)) ((a + 1) + k) from ihfold]
      rw [this]
      rfl

theorem snapshots_counter_free : ∀ (us : List JobUpdate) (r : JobRecord),
    (∀ u ∈ us, ∀ p, u.progress = some p → p.ttsTotal = none ∧ p.ttsDone = none) →
    (∀ s ∈ snapshots r us, s.progress.ttsDone = r.progress.ttsDone ∧
        s.progress.ttsTotal = r.progress.ttsTotal) ∧
    List.Chain' (fun s₁ s₂ => doneLe s₁.progress.ttsDone s₂.progress.ttsDone)
      (snapshots r us)
  | [], r, _ => by
    constructor
    · intro s hs
      simp only [snapshots, List.mem_singleton] at hs
      rw [hs]
      exact ⟨rfl, rfl⟩
    · simp [snapshots]
  | u :: us, r, hu => by
    obtain ⟨hcd, hct⟩ := applyUpdate_counters r (hu u (List.mem_cons_self u us))
    obtain ⟨ihmem, ihchain⟩ := snapshots_counter_free us (applyUpdate r u)
      (fun v hv => hu v (List.mem_cons_of_mem u hv))
    constructor
    · intro s hs
      rcases List.mem_cons.mp hs with h | h
      · rw [h]; exact ⟨rfl, rfl⟩
      · obtain ⟨h1, h2⟩ := ihmem s h
        exact ⟨by rw [h1, hcd], by rw [h2, hct]⟩
    · show List.Chain' _ (r :: snapshots (applyUpdate r u) us)
      rw [List.chain'_cons']
      constructor
      · intro y hy
        rw [snapshots_head] at hy
        rw [← Option.mem_some_iff.mp hy, hcd]
        exact doneLe_refl _
      · exact ihchain

/-! ### C1 / C2 -/

theorem run_job_pre_updates (o : Oracle) (req : VideoJobRequest) :
    ∃ (pre : List JobUpdate) (term : JobUpdate),
      (run_job o req).updates = pre ++ [term] ∧
      (∀ u ∈ pre, u.result = none ∧ u.error = none ∧
        (u.status = none ∨ u = running_update)) ∧
      ((∃ res, term = finish_update res) ∨ (∃ e, term = fail_update e)) := by
  obtain ⟨k, tail, term, hu, _, htail, hterm⟩ := run_job_shape o req
  refine ⟨running_update :: tts_init_update (tts_total req.parameter) ::
      ((List.range' 1 k).map tts_done_update ++ tail), term, ?_, ?_, hterm⟩
  · rw [hu]
    simp [List.append_assoc]
  · intro u hu'
    rcases List.mem_cons.mp hu' with h | h
    · subst h
      exact ⟨rfl, rfl, Or.inr rfl⟩
    rcases List.mem_cons.mp h with h' | h'
    · subst h'
      exact ⟨rfl, rfl, Or.inl rfl⟩
    rcases List.mem_append.mp h' with h'' | h''
    · obtain ⟨v, _, hv⟩ := List.mem_map.mp h''
      subst hv
      exact ⟨rfl, rfl, Or.inl rfl⟩
    · obtain ⟨s, hs⟩ := htail u h''
      subst hs
      exact ⟨rfl, rfl, Or.inl rfl⟩

/-- C1: every job run issues exactly one terminal-status update (`done` or
`failed`); across every snapshot of the job record, `result` and `error` are
never both set; `result` is set only by the `done` update and `error` only by
the `failed` update; and the final record is terminal with exactly the
matching one of `result`/`error` populated. -/
theorem c1_terminal_state_exclusive (o : Oracle) (req : VideoJobRequest)
    (job_id : String) :
    (∀ s ∈ snapshots (initialRecord job_id req) (run_job o req).updates,
        ¬(s.result.isSome = true ∧ s.error.isSome = true)) ∧
    ((run_job o req).updates.countP
        (fun u => u.status == some JobStatus.done ||
          u.status == some JobStatus.failed) = 1) ∧
    (∀ u ∈ (run_job o req).updates,
        (u.result.isSome = true → u.status = some JobStatus.done) ∧
        (u.error.isSome = true → u.status = some JobStatus.failed)) ∧
    (∀ s, (snapshots (initialRecord job_id req) (run_job o req).updates).getLast? =
        some s →
      (s.status = JobStatus.done ∧ s.result.isSome = true ∧ s.error = none) ∨
      (s.status = JobStatus.failed ∧ s.error.isSome = true ∧ s.result = none)) := by
  obtain ⟨pre, term, hus, hpre, hterm⟩ := run_job_pre_updates o req
  have hpreRE : ∀ u ∈ pre, u.result = none ∧ u.error = none :=
    fun u hu => ⟨(hpre u hu).1, (hpre u hu).2.1⟩
  have hkeep := snapshots_keep_result_error pre (initialRecord job_id req)
    hpreRE rfl rfl
  have hfoldRE := hkeep _ (foldl_mem_snapshots pre (initialRecord job_id req))
  refine ⟨?_, ?_, ?_, ?_⟩
  · intro s hs
    rw [hus, snapshots_append] at hs
    rcases List.mem_append.mp hs with h | h
    · obtain ⟨h1, h2⟩ := hkeep s ((List.dropLast_sublist _).subset h)
      rw [h1, h2]
      simp
    · simp only [snapshots, List.mem_cons, List.mem_singleton] at h
      rcases h with h | h
      · obtain ⟨h1, h2⟩ := hfoldRE
        rw [h, h1, h2]
        simp
      · rcases h with h | hfalse
        · rcases hterm with ⟨res, hres⟩ | ⟨e, he⟩
          · subst hres
            rw [h, applyUpdate_error]
            intro hc
            rw [show (finish_update res).error = none from rfl] at hc
            rw [hfoldRE.2] at hc
            simp at hc
          · subst he
            rw [h, applyUpdate_result]
            intro hc
            rw [show (fail_update e).result = none from rfl] at hc
            rw [hfoldRE.1] at hc
            simp at hc
        · exact absurd hfalse (by simp)
  · rw [hus, List.countP_append]
    have hpre0 : pre.countP
        (fun u => u.status == some JobStatus.done ||
          u.status == some JobStatus.failed) = 0 := by
      rw [List.countP_eq_zero]
      intro u hu
      rcases (hpre u hu).2.2 with h | h
      · simp [h]
      · subst h
        simp [running_update]
    have hterm1 : (fun u : JobUpdate => u.status == some JobStatus.done ||
        u.status == some JobStatus.failed) term = true := by
      rcases hterm with ⟨res, rfl⟩ | ⟨e, rfl⟩ <;> rfl
    rw [hpre0]
    simp [List.countP_cons, hterm1]
  · intro u hu'
    rw [hus] at hu'
    rcases List.mem_append.mp hu' with h | h
    · obtain ⟨h1, h2⟩ := hpreRE u h
      rw [h1, h2]
      simp
    · rw [List.mem_singleton.mp h]
      rcases hterm with ⟨res, rfl⟩ | ⟨e, rfl⟩
      · exact ⟨fun _ => rfl, by simp [finish_update]⟩
      · exact ⟨by simp [fail_update], fun _ => rfl⟩
  · intro s hs
    rw [snapshots_getLast?] at hs
    have hs' : s = (run_job o req).updates.foldl applyUpdate
        (initialRecord job_id req) := (Option.mem_some_iff.mp hs).symm
    rw [hus, List.foldl_append] at hs'
    simp only [List.foldl_cons, List.foldl_nil] at hs'
    rcases hterm with ⟨res, hres⟩ | ⟨e, he⟩
    · refine Or.inl ⟨?_, ?_, ?_⟩
      · rw [hs', hres, applyUpdate_status]
        rfl
      · rw [hs', hres, applyUpdate_result]
        rfl
      · rw [hs', hres, applyUpdate_error]
        rw [show (finish_update res).error = none from rfl]
        exact hfoldRE.2
    · refine Or.inr ⟨?_, ?_, ?_⟩
      · rw [hs', he, applyUpdate_status]
        rfl
      · rw [hs', he, applyUpdate_error]
        rfl
      · rw [hs', he, applyUpdate_result]
        rw [show (fail_update e).result = none from rfl]
        exact hfoldRE.1

/-- C2: across the snapshots of any job run, the published `ttsDone` counter
is monotonically non-decreasing (and never unpublished), and whenever it is
published it is at most `ttsTotal`, which equals the number of script items
across all groups plus one for a hook scene with non-empty text. -/
theorem c2_ttsDone_monotone_bounded (o : Oracle) (req : VideoJobRequest)
    (job_id : String) :
    List.Chain' (fun s₁ s₂ => doneLe s₁.progress.ttsDone s₂.progress.ttsDone)
      (snapshots (initialRecord job_id req) (run_job o req).updates) ∧
    (∀ s ∈ snapshots (initialRecord job_id req) (run_job o req).updates,
      ∀ d, s.progress.ttsDone = some d →
        s.progress.ttsTotal = some (tts_total req.parameter) ∧
        d ≤ tts_total req.parameter) := by
  obtain ⟨k, tail, term, hu, hk, htail, hterm⟩ := run_job_shape o req
  have hS : snapshots (initialRecord job_id req) (run_job o req).updates =
      initialRecord job_id req ::
      applyUpdate (initialRecord job_id req) running_update ::
      snapshots
        (applyUpdate (applyUpdate (initialRecord job_id req) running_update)
          (tts_init_update (tts_total req.parameter)))
        ((List.range' 1 k).map tts_done_update ++ (tail ++ [term])) := by
    rw [hu]
    rfl
  have hr2d : (applyUpdate (applyUpdate (initialRecord job_id req) running_update)
      (tts_init_update (tts_total req.parameter))).progress.ttsDone = some 0 := rfl
  have hr2t : (applyUpdate (applyUpdate (initialRecord job_id req) running_update)
      (tts_init_update (tts_total req.parameter))).progress.ttsTotal =
      some (tts_total req.parameter) := rfl
  obtain ⟨hmemA, hchainA, hfoldA⟩ :=
    snapshots_done_run (tts_total req.parameter) k 0
      (applyUpdate (applyUpdate (initialRecord job_id req) running_update)
        (tts_init_update (tts_total req.parameter)))
      hr2d hr2t (by omega)
  simp only [Nat.zero_add] at hmemA hchainA hfoldA
  have hBcf : ∀ u ∈ tail ++ [term], ∀ p, u.progress = some p →
      p.ttsTotal = none ∧ p.ttsDone = none := by
    intro u hu' p hp
    rcases List.mem_append.mp hu' with h | h
    · obtain ⟨s, rfl⟩ := htail u h
      rw [show (stage_update s).progress = some { stage := some s } from rfl] at hp
      injection hp with hp'
      rw [← hp']
      exact ⟨rfl, rfl⟩
    · rw [List.mem_singleton.mp h] at hp
      rcases hterm with ⟨res, rfl⟩ | ⟨e, rfl⟩
      · rw [show (finish_update res).progress =
            some { stage := some "finishing" } from rfl] at hp
        injection hp with hp'
        rw [← hp']
        exact ⟨rfl, rfl⟩
      · rw [show (fail_update e).progress =
            some { stage := some "failed" } from rfl] at hp
        injection hp with hp'
        rw [← hp']
        exact ⟨rfl, rfl⟩
  obtain ⟨hmemB, hchainB⟩ := snapshots_counter_free (tail ++ [term])
    (withDone (applyUpdate (applyUpdate (initialRecord job_id req) running_update)
      (tts_init_update (tts_total req.parameter))) k) hBcf
  have hZ : snapshots
      (applyUpdate (applyUpdate (initialRecord job_id req) running_update)
        (tts_init_update (tts_total req.parameter)))
      ((List.range' 1 k).map tts_done_update ++ (tail ++ [term])) =
      (snapshots
        (applyUpdate (applyUpdate (initialRecord job_id req) running_update)
          (tts_init_update (tts_total req.parameter)))
        ((List.range' 1 k).map tts_done_update)).dropLast ++
      snapshots
        (withDone (applyUpdate (applyUpdate (initialRecord job_id req) running_update)
          (tts_init_update (tts_total req.parameter))) k)
        (tail ++ [term]) := by
    rw [snapshots_append, hfoldA]
  constructor
  · rw [hS]
    rw [List.chain'_cons']
    refine ⟨?_, ?_⟩
    · intro y _
      show doneLe (initialRecord job_id req).progress.ttsDone _
      rw [show (initialRecord job_id req).progress.ttsDone = none from rfl]
      trivial
    rw [List.chain'_cons']
    refine ⟨?_, ?_⟩
    · intro y _
      show doneLe (applyUpdate (initialRecord job_id req) running_update).progress.ttsDone _
      rw [show (applyUpdate (initialRecord job_id req)
            running_update).progress.ttsDone = none from rfl]
      trivial
    rw [hZ]
    refine chain'_glue hchainA hchainB ?_
    rw [snapshots_getLast?, hfoldA, snapshots_head]
  · intro s hs
    rw [hS] at hs
    rcases List.mem_cons.mp hs with h | h
    · intro d hd
      rw [h] at hd
      rw [show (initialRecord job_id req).progress.ttsDone = none from rfl] at hd
      cases hd
    rcases List.mem_cons.mp h with h' | h'
    · intro d hd
      rw [h'] at hd
      rw [show (applyUpdate (initialRecord job_id req)
            running_update).progress.ttsDone = none from rfl] at hd
      cases hd
    rw [hZ] at h'
    rcases List.mem_append.mp h' with h'' | h''
    · obtain ⟨d0, hsome, hle, htot⟩ := hmemA s ((List.dropLast_sublist _).subset h'')
      intro d hd
      rw [hsome] at hd
      injection hd with hd'
      rw [← hd']
      exact ⟨htot, hle⟩
    · obtain ⟨h1, h2⟩ := hmemB s h''
      intro d hd
      rw [h1] at hd
      rw [show (withDone (applyUpdate (applyUpdate (initialRecord job_id req)
            running_update) (tts_init_update (tts_total req.parameter)))
            k).progress.ttsDone = some k from rfl] at hd
      injection hd with hd'
      rw [← hd']
      refine ⟨?_, hk⟩
      rw [h2]
      exact hr2t

/-! ### Persisted document and result contents -/

theorem run_job_success_char {o : Oracle} {req : VideoJobRequest} {st1 : RunSt}
    {parameter' : ParameterJsonDraft}
    (h : process_script_groups o req.videoId
        { req.parameter with meta := meta_setdefault req.parameter.meta req.videoId }
        req.options (emit {} running_update) = (st1, .ok parameter')) :
    run_job o req = run_success o req st1 parameter' := by
  unfold run_job
  simp only [h]

theorem run_job_fail_char {o : Oracle} {req : VideoJobRequest} {st1 : RunSt}
    {e : PyErr}
    (h : process_script_groups o req.videoId
        { req.parameter with meta := meta_setdefault req.parameter.meta req.videoId }
        req.options (emit {} running_update) = (st1, .error e)) :
    run_job o req = emit st1 (fail_update e) := by
  unfold run_job
  simp only [h]

theorem run_success_persisted (o : Oracle) (req : VideoJobRequest) (st1 : RunSt)
    (p0 : ParameterJsonDraft) :
    (run_success o req st1 p0).persisted = some ((compute_scene0_duration p0).2) := by
  unfold run_success
  rcases hcs : compute_scene0_duration p0 with ⟨hd, param⟩
  simp only [hcs, parameter_path_ok]
  by_cases hr : req.options.render && !req.options.dryRun
  · rw [if_pos hr]
    rcases o.render with m | vp <;> simp [emit]
  · rw [if_neg hr]
    simp [emit]

theorem psg_run_updates_result_none {o : Oracle} {req : VideoJobRequest}
    {st1 : RunSt} {r : Except PyErr ParameterJsonDraft}
    (h : process_script_groups o req.videoId
        { req.parameter with meta := meta_setdefault req.parameter.meta req.videoId }
        req.options (emit {} running_update) = (st1, r)) :
    ∀ u ∈ st1.updates, u.result = none := by
  obtain ⟨k, _, hups, _, _⟩ := process_script_groups_shape h
  rw [hups]
  intro u hu
  rcases List.mem_append.mp hu with h' | h'
  · rw [show (emit ({} : RunSt) running_update).updates = [running_update] from rfl] at h'
    rw [List.mem_singleton.mp h']
    rfl
  · rcases List.mem_cons.mp h' with h'' | h''
    · rw [h'']
      rfl
    · obtain ⟨v, _, hv⟩ := List.mem_map.mp h''
      rw [← hv]
      rfl

theorem run_success_result_total (o : Oracle) (req : VideoJobRequest) (st1 : RunSt)
    (p0 : ParameterJsonDraft) (hst1 : ∀ u ∈ st1.updates, u.result = none) :
    ∀ u ∈ (run_success o req st1 p0).updates, ∀ res, u.result = some res →
      res.totalSec = compute_total_sec ((compute_scene0_duration p0).2) := by
  unfold run_success
  rcases hcs : compute_scene0_duration p0 with ⟨hd, param⟩
  simp only [hcs, parameter_path_ok]
  by_cases hr : req.options.render && !req.options.dryRun
  · rw [if_pos hr]
    rcases o.render with m | vp
    · intro u hu res hres
      rw [show (emit (emit { emit st1 (stage_update "param-building") with
            written := (emit st1 (stage_update "param-building")).written ++
              [PROJECTS_ROOT ++ rel_segments (pyStrip (param_template req.videoId))]
            events := (emit st1 (stage_update "param-building")).events ++
              [Event.fsWrite (PROJECTS_ROOT ++
                rel_segments (pyStrip (param_template req.videoId)))]
            persisted := some param } (stage_update "rendering"))
            (fail_update (PyErr.runtimeError m))).updates =
          st1.updates ++ [stage_update "param-building", stage_update "rendering",
            fail_update (PyErr.runtimeError m)] by simp [emit]] at hu
      rcases List.mem_append.mp hu with h | h
      · rw [hst1 u h] at hres
        cases hres
      · rcases List.mem_cons.mp h with h' | h'
        · rw [h'] at hres
          cases hres
        rcases List.mem_cons.mp h' with h'' | h''
        · rw [h''] at hres
          cases hres
        · rw [List.mem_singleton.mp h''] at hres
          cases hres
    · intro u hu res hres
      rw [show (emit (emit { emit st1 (stage_update "param-building") with
            written := (emit st1 (stage_update "param-building")).written ++
              [PROJECTS_ROOT ++ rel_segments (pyStrip (param_template req.videoId))]
            events := (emit st1 (stage_update "param-building")).events ++
              [Event.fsWrite (PROJECTS_ROOT ++
                rel_segments (pyStrip (param_template req.videoId)))]
            persisted := some param } (stage_update "rendering"))
            (finish_update { run_result hd param
              (PROJECTS_ROOT ++ rel_segments (pyStrip (param_template req.videoId))) with
                videoPath := some vp })).updates =
          st1.updates ++ [stage_update "param-building", stage_update "rendering",
            finish_update { run_result hd param
              (PROJECTS_ROOT ++ rel_segments (pyStrip (param_template req.videoId))) with
                videoPath := some vp }] by simp [emit]] at hu
      rcases List.mem_append.mp hu with h | h
      · rw [hst1 u h] at hres
        cases hres
      · rcases List.mem_cons.mp h with h' | h'
        · rw [h'] at hres
          cases hres
        rcases List.mem_cons.mp h' with h'' | h''
        · rw [h''] at hres
          cases hres
        · rw [List.mem_singleton.mp h''] at hres
          injection hres with hres'
          rw [← hres']
          rfl
  · rw [if_neg hr]
    intro u hu res hres
    rw [show (emit { emit st1 (stage_update "param-building") with
          written := (emit st1 (stage_update "param-building")).written ++
            [PROJECTS_ROOT ++ rel_segments (pyStrip (param_template req.videoId))]
          events := (emit st1 (stage_update "param-building")).events ++
            [Event.fsWrite (PROJECTS_ROOT ++
              rel_segments (pyStrip (param_template req.videoId)))]
          persisted := some param }
          (finish_update (run_result hd param
            (PROJECTS_ROOT ++ rel_segments (pyStrip (param_template req.videoId)))))).updates =
        st1.updates ++ [stage_update "param-building",
          finish_update (run_result hd param
            (PROJECTS_ROOT ++ rel_segments (pyStrip (param_template req.videoId))))]
        by simp [emit]] at hu
    rcases List.mem_append.mp hu with h | h
    · rw [hst1 u h] at hres
      cases hres
    · rcases List.mem_cons.mp h with h' | h'
      · rw [h'] at hres
        cases hres
      · rw [List.mem_singleton.mp h'] at hres
        injection hres with hres'
        rw [← hres']
        rfl

theorem run_job_error_persisted {o : Oracle} {req : VideoJobRequest} {st1 : RunSt}
    {e : PyErr}
    (h : process_script_groups o req.videoId
        { req.parameter with meta := meta_setdefault req.parameter.meta req.videoId }
        req.options (emit {} running_update) = (st1, .error e)) :
    (run_job o req).persisted = none := by
  rw [run_job_fail_char h]
  obtain ⟨_, _, _, _, hpers⟩ := process_script_groups_shape h
  show st1.persisted = none
  rw [hpers]
  rfl

theorem round3_zero : round3 0 = 0 := by
  norm_num [round3]

theorem round3_eq_of_floor {q : ℚ} {n : ℤ} (h1 : (n : ℚ) ≤ q * 1000 + 1 / 2)
    (h2 : q * 1000 + 1 / 2 < n + 1) : round3 q = (n : ℚ) / 1000 := by
  unfold round3
  rw [round_eq, Int.floor_eq_iff.mpr ⟨h1, h2⟩]

theorem fallback_guard_zero (p : ParameterJsonDraft) :
    (match fallback_total_sec p (some 0) with
     | some t => if t = 0 then none else some t
     | none => (none : Option ℚ)) =
    (match fallback_total_sec p none with
     | some t => if t = 0 then none else some t
     | none => none) := by
  unfold fallback_total_sec
  rcases pyFloat (p.spec.fps.getD (.num 30)) with _ | fps
  · rfl
  rcases pyFloat (match p.spec.durationInFrames with
      | some v => if v.isTruthy then v else .num 0
      | none => .num 0) with _ | frames
  · rfl
  by_cases hf : 0 < frames
  · simp only [if_pos hf]
  · simp only [if_neg hf]
    norm_num

theorem compute_total_eq_spec (p : ParameterJsonDraft) :
    compute_total_sec p = total_sec_spec p := by
  have hsum := sum_filter_ne_zero (p.scenes.filterMap SceneDraft.durationSec)
  unfold compute_total_sec total_sec_spec
  by_cases h1 : ((p.scenes.filterMap SceneDraft.durationSec).filter
      (fun q => q != 0)).isEmpty = true
  · by_cases h2 : (p.scenes.filterMap SceneDraft.durationSec).isEmpty = true
    · simp only [h1, h2, if_true]
    · have hsz : (p.scenes.filterMap SceneDraft.durationSec).sum = 0 := by
        rw [← hsum]
        rw [List.isEmpty_iff.mp h1]
        rfl
      simp only [h1, h2, if_true, if_false, hsz, round3_zero, Bool.false_eq_true]
      exact (fallback_guard_zero p).symm
  · have h2 : ¬ (p.scenes.filterMap SceneDraft.durationSec).isEmpty = true := by
      intro h2
      rw [List.isEmpty_iff.mp h2] at h1
      simp at h1
    simp only [h1, h2, if_false, Bool.false_eq_true, hsum]

/-! ### C7 / C9 -/

/-- C7: the total-duration policy equals its specification (rounded sum of
exactly the scenes with a stated `durationSec`, with the `frames / fps`
fallback when that sum is unavailable or zero, exceptions absorbed, a falsy
total omitted); the worked example `[6.3, 10.0, 8.2]` yields `24.5`; and any
result published by a job run carries `totalSec` computed by that policy
from the very document that was persisted. -/
theorem c7_total_duration_policy :
    (∀ p, compute_total_sec p = total_sec_spec p) ∧
    compute_total_sec total_example_param = some (49 / 2) ∧
    (∀ (o : Oracle) (req : VideoJobRequest), ∀ u ∈ (run_job o req).updates,
      ∀ res, u.result = some res →
        ∃ doc, (run_job o req).persisted = some doc ∧
          res.totalSec = compute_total_sec doc) := by
  refine ⟨compute_total_eq_spec, ?_, ?_⟩
  · show compute_total_sec total_example_param = some (49 / 2)
    have hlist : total_example_param.scenes.filterMap SceneDraft.durationSec =
        [63 / 10, 10, 41 / 5] := rfl
    unfold compute_total_sec
    rw [hlist]
    have hfilter : ([(63 : ℚ) / 10, 10, 41 / 5].filter (fun q => q != 0)) =
        [63 / 10, 10, 41 / 5] := by
      simp only [List.filter_cons, List.filter_nil, bne_iff_ne, ne_eq]
      norm_num
    rw [hfilter]
    have hsum : ([(63 : ℚ) / 10, 10, 41 / 5]).sum = 49 / 2 := by
      simp only [List.sum_cons, List.sum_nil]
      norm_num
    have hround : round3 ((49 : ℚ) / 2) = 49 / 2 := by
      have := round3_eq_of_floor (q := 49 / 2) (n := 24500) (by norm_num) (by norm_num)
      rw [this]
      norm_num
    simp only [List.isEmpty_eq_true, hsum, hround]
    have hne : ¬([(63 : ℚ) / 10, 10, 41 / 5] = []) := by simp
    simp only [if_neg hne]
    norm_num
  intro o req u hu res hres
  rcases hpsg : process_script_groups o req.videoId
      { req.parameter with meta := meta_setdefault req.parameter.meta req.videoId }
      req.options (emit {} running_update) with ⟨st1, r1⟩
  rcases r1 with e | parameter'
  · rw [run_job_fail_char hpsg] at hu
    rw [show (emit st1 (fail_update e)).updates =
        st1.updates ++ [fail_update e] from rfl] at hu
    rcases List.mem_append.mp hu with h | h
    · rw [psg_run_updates_result_none hpsg u h] at hres
      cases hres
    · rw [List.mem_singleton.mp h] at hres
      cases hres
  · rw [run_job_success_char hpsg] at hu
    refine ⟨(compute_scene0_duration parameter').2, ?_, ?_⟩
    · rw [run_job_success_char hpsg, run_success_persisted]
    · exact run_success_result_total o req st1 parameter'
        (psg_run_updates_result_none hpsg) u hu res hres

theorem c7_total_duration_policy_witness :
    compute_total_sec total_example_param = total_sec_spec total_example_param ∧
    (∃ doc, (run_job sample_oracle sample_request).persisted = some doc ∧
      JobResult.totalSec
        { parameterPath := ["remotion-projects", "abc", "parameter.json"]
          hookSec := none
          totalSec := none
          videoPath := some ["remotion-out", "abc.mp4"] } = compute_total_sec doc) := by
  refine ⟨c7_total_duration_policy.1 total_example_param, ?_⟩
  exact c7_total_duration_policy.2.2 sample_oracle sample_request
    (finish_update
      { parameterPath := ["remotion-projects", "abc", "parameter.json"]
        hookSec := none
        totalSec := none
        videoPath := some ["remotion-out", "abc.mp4"] })
    (by decide) _ (by decide)

/-- C9: job execution never mutates the request embedded in the job record —
every snapshot of the record carries the original request unchanged — and
the document that gets persisted is the pipeline's private copy: the output
of the synthesis stage and the timing resolver applied to (a copy of) the
request's parameter document. -/
theorem c9_request_immutable (o : Oracle) (req : VideoJobRequest)
    (job_id : String) :
    (∀ s ∈ snapshots (initialRecord job_id req) (run_job o req).updates,
        s.request = req) ∧
    (∀ doc, (run_job o req).persisted = some doc →
      ∃ st1 mid, process_script_groups o req.videoId
          { req.parameter with meta := meta_setdefault req.parameter.meta req.videoId }
          req.options (emit {} running_update) = (st1, .ok mid) ∧
        doc = (compute_scene0_duration mid).2) := by
  constructor
  · intro s hs
    exact snapshots_request _ _ s hs
  · intro doc hdoc
    rcases hpsg : process_script_groups o req.videoId
        { req.parameter with meta := meta_setdefault req.parameter.meta req.videoId }
        req.options (emit {} running_update) with ⟨st1, r1⟩
    rcases r1 with e | parameter'
    · rw [run_job_error_persisted hpsg] at hdoc
      cases hdoc
    · rw [run_job_success_char hpsg, run_success_persisted] at hdoc
      injection hdoc with hdoc'
      exact ⟨st1, parameter', rfl, hdoc'.symm⟩

theorem c9_request_immutable_witness :
    (initialRecord "job" sample_request).request = sample_request :=
  (c9_request_immutable sample_oracle sample_request "job").1
    (initialRecord "job" sample_request) (by decide)

theorem c1_terminal_state_exclusive_witness :
    ¬((initialRecord "job" sample_request).result.isSome = true ∧
      (initialRecord "job" sample_request).error.isSome = true) ∧
    (run_job sample_oracle sample_request).updates.countP
      (fun u => u.status == some JobStatus.done ||
        u.status == some JobStatus.failed) = 1 := by
  refine ⟨(c1_terminal_state_exclusive sample_oracle sample_request "job").1
    (initialRecord "job" sample_request) (by decide), ?_⟩
  exact (c1_terminal_state_exclusive sample_oracle sample_request "job").2.1

theorem c2_ttsDone_monotone_bounded_witness :
    (applyUpdate (applyUpdate (initialRecord "job" sample_request) running_update)
      (tts_init_update (tts_total sample_request.parameter))).progress.ttsTotal =
      some (tts_total sample_request.parameter) ∧
    0 ≤ tts_total sample_request.parameter :=
  (c2_ttsDone_monotone_bounded sample_oracle sample_request "job").2
    (applyUpdate (applyUpdate (initialRecord "job" sample_request) running_update)
      (tts_init_update (tts_total sample_request.parameter)))
    (by decide) 0 (by decide)

/-! ### C3 -/

theorem hook_loop_eq_formula (g : ScriptGroupDraft) :
    hook_loop_total g = hook_formula g := by
  unfold hook_loop_total hook_formula
  rw [sum_with_gaps_eq]

theorem compute_scene0_snd {p : ParameterJsonDraft} {s0 : SceneDraft}
    {rest : List SceneDraft} {g0 : ScriptGroupDraft} {grest : List ScriptGroupDraft}
    (hs : p.scenes = s0 :: rest) (hg : p.scriptGroups = g0 :: grest) :
    ∃ c, (compute_scene0_duration p).1 = some c ∧
      (compute_scene0_duration p).2.scenes =
        { s0 with durationSec := some c } :: rest := by
  unfold compute_scene0_duration
  simp only [hs, hg]
  exact ⟨_, rfl, rfl⟩

theorem c3_hook_example_loop :
    hook_loop_total
      { id := "hook", gapSec := some (1 / 2),
        items := [{ voiceSec := some 2 }, { voiceSec := some 3 }] } = 63 / 10 := by
  unfold hook_loop_total
  rw [show sum_with_gaps ((some ((1 : ℚ) / 2)).getD 0)
      [{ voiceSec := some 2 }, { voiceSec := some 3 }] =
      item_contribution { voiceSec := some 2 } + (1 / 2) +
        sum_with_gaps (1 / 2) [{ voiceSec := some 3 }] from rfl]
  rw [show sum_with_gaps ((1 : ℚ) / 2) [{ voiceSec := some 3 }] =
      item_contribution { voiceSec := some 3 } from rfl]
  rw [show item_contribution { voiceSec := some 2 } = 2 by
    unfold item_contribution
    norm_num]
  rw [show item_contribution { voiceSec := some 3 } = 3 by
    unfold item_contribution
    norm_num]
  rw [max_eq_right (by norm_num [MIN_HOOK_SEC, HOOK_MARGIN_SEC])]
  norm_num [HOOK_MARGIN_SEC]

/-- C3 counterexample: the first scene's audio descriptor states a duration
(of exactly `0`), yet the resolver does not return it — `if not
audio_duration:` treats a stated `0.0` as absent and computes the fallback
(5 + 0.8 = 5.8 s) instead. -/
theorem c3_stated_zero_not_trusted :
    stated_hook_duration
      { startFrame := 0, audioDesc := .adict { durationSec := some (.num 0) } } =
      some 0 ∧
    (compute_scene0_duration hook_zero_stated_param).1 = some (29 / 5) ∧
    (29 : ℚ) / 5 ≠ 0 := by
  refine ⟨rfl, ?_, by norm_num⟩
  have hval : (compute_scene0_duration hook_zero_stated_param).1 =
      some (round3 (hook_loop_total { id := "hook", items := [{ voiceSec := some 5 }] })) :=
    rfl
  rw [hval]
  have hloop : hook_loop_total { id := "hook", items := [{ voiceSec := some 5 }] } =
      29 / 5 := by
    unfold hook_loop_total
    rw [show sum_with_gaps ((none : Option ℚ).getD 0)
        [{ voiceSec := some 5 }] = item_contribution { voiceSec := some 5 } from rfl]
    rw [show item_contribution { voiceSec := some 5 } = 5 by
      unfold item_contribution
      norm_num]
    rw [max_eq_right (by norm_num [MIN_HOOK_SEC, HOOK_MARGIN_SEC])]
    norm_num [HOOK_MARGIN_SEC]
  rw [hloop]
  have h58 : round3 ((29 : ℚ) / 5) = 29 / 5 := by
    have h := round3_eq_of_floor (q := 29 / 5) (n := 5800) (by norm_num) (by norm_num)
    rw [h]
    norm_num
  rw [h58]

/-- C3 (amended): the scene-0 duration policy returns the stated audio
duration only when it is non-zero; otherwise it computes
`max(minimum, Σ contributions + gap·(n−1) + margin)`, where an item
contributes its `voiceSec` when that is non-zero and the text-length
estimate otherwise; the value is rounded to 3 decimals and written onto
scene 0's `durationSec`.  The worked examples hold: items `[2.0, 3.0]` with
gap `0.5` yield `6.3`, and items summing below the minimum yield `3.0`. -/
theorem c3_scene0_duration_policy :
    (∀ p, (compute_scene0_duration p).1 = scene0_duration_spec p) ∧
    (∀ p d, (compute_scene0_duration p).1 = some d →
      ((compute_scene0_duration p).2.scenes.head?).map SceneDraft.durationSec =
        some (some d)) ∧
    (compute_scene0_duration hook_example_param).1 = some (63 / 10) ∧
    (compute_scene0_duration hook_min_param).1 = some 3 := by
  have hmain : ∀ p, (compute_scene0_duration p).1 = scene0_duration_spec p := by
    intro p
    unfold compute_scene0_duration scene0_duration_spec
    rcases hs : p.scenes with _ | ⟨s0, rest⟩
    · rfl
    rcases hg : p.scriptGroups with _ | ⟨g0, grest⟩
    · rfl
    simp only []
    rcases hst : stated_hook_duration s0 with _ | q
    · simp only [hook_loop_eq_formula]
    · by_cases hq : q = 0
      · simp only [if_pos hq, hook_loop_eq_formula]
      · simp only [if_neg hq]
  refine ⟨hmain, ?_, ?_, ?_⟩
  · intro p d hd
    rcases hs : p.scenes with _ | ⟨s0, rest⟩
    · unfold compute_scene0_duration at hd
      rw [hs] at hd
      cases hd
    rcases hg : p.scriptGroups with _ | ⟨g0, grest⟩
    · unfold compute_scene0_duration at hd
      simp only [hs, hg] at hd
      exact Option.noConfusion hd
    · obtain ⟨c, hc1, hc2⟩ := compute_scene0_snd hs hg
      rw [hc1] at hd
      injection hd with hd'
      rw [hc2, hd']
      rfl
  · have hval : (compute_scene0_duration hook_example_param).1 =
        some (round3 (hook_loop_total
          { id := "hook", gapSec := some (1 / 2),
            items := [{ voiceSec := some 2 }, { voiceSec := some 3 }] })) := rfl
    rw [hval, c3_hook_example_loop]
    have h63 : round3 ((63 : ℚ) / 10) = 63 / 10 := by
      have h := round3_eq_of_floor (q := 63 / 10) (n := 6300) (by norm_num) (by norm_num)
      rw [h]
      norm_num
    rw [h63]
  · have hval : (compute_scene0_duration hook_min_param).1 =
        some (round3 (hook_loop_total
          { id := "hook", items := [{ voiceSec := some 1 }] })) := rfl
    rw [hval]
    have hloop : hook_loop_total { id := "hook", items := [{ voiceSec := some 1 }] } = 3 := by
      unfold hook_loop_total
      rw [show sum_with_gaps ((none : Option ℚ).getD 0)
          [{ voiceSec := some 1 }] = item_contribution { voiceSec := some 1 } from rfl]
      rw [show item_contribution { voiceSec := some 1 } = 1 by
        unfold item_contribution
        norm_num]
      rw [max_eq_left (by norm_num [MIN_HOOK_SEC, HOOK_MARGIN_SEC])]
      rfl
    rw [hloop]
    have h3 : round3 ((3 : ℚ)) = 3 := by
      have h := round3_eq_of_floor (q := 3) (n := 3000) (by norm_num) (by norm_num)
      rw [h]
      norm_num
    rw [h3]

theorem c3_scene0_duration_policy_witness :
    (compute_scene0_duration hook_example_param).1 =
      scene0_duration_spec hook_example_param ∧
    ((compute_scene0_duration hook_example_param).2.scenes.head?).map
      SceneDraft.durationSec = some (some (63 / 10)) :=
  ⟨c3_scene0_duration_policy.1 hook_example_param,
   c3_scene0_duration_policy.2.1 hook_example_param (63 / 10)
     c3_scene0_duration_policy.2.2.1⟩

/-! ### C6 -/

/-- C6: an item whose text is empty or whitespace-only is completed with
`voiceSec = 0.0`, triggers no TTS call, no file write and no probe, yet the
`ttsDone` counter is still incremented and published; and every item of
every group occupies one slot of `ttsTotal`. -/
theorem c6_empty_text_item (o : Oracle) (vid : String) (opts : JobOptions)
    (gi ii : ℕ) (item : ScriptItem) (st : RunSt)
    (h : pyStrip (item.text.getD "") = "") :
    (process_item o vid opts gi ii item st).2 =
      .ok { item with voiceSec := some 0 } ∧
    (process_item o vid opts gi ii item st).1.events = st.events ∧
    (process_item o vid opts gi ii item st).1.written = st.written ∧
    (process_item o vid opts gi ii item st).1.synthCalls = st.synthCalls ∧
    (process_item o vid opts gi ii item st).1.probeCalls = st.probeCalls ∧
    (process_item o vid opts gi ii item st).1.done = st.done + 1 ∧
    (process_item o vid opts gi ii item st).1.updates =
      st.updates ++ [tts_done_update (st.done + 1)] ∧
    ∀ p : ParameterJsonDraft, ∀ g ∈ p.scriptGroups,
      g.items.length ≤ tts_total p := by
  have hpi : process_item o vid opts gi ii item st =
      (bump_done st, .ok { item with voiceSec := some 0 }) := by
    unfold process_item
    rw [if_pos h]
  refine ⟨by rw [hpi], by rw [hpi]; rfl, by rw [hpi]; rfl, by rw [hpi]; rfl,
    by rw [hpi]; rfl, by rw [hpi]; rfl, by rw [hpi]; rfl, ?_⟩
  intro p g hg
  unfold tts_total
  have hmem : g.items.length ∈ p.scriptGroups.map (fun g => g.items.length) :=
    List.mem_map_of_mem _ hg
  exact le_trans (List.single_le_sum (fun _ _ => Nat.zero_le _) _ hmem)
    (Nat.le_add_right _ _)

theorem c6_empty_text_item_witness :
    pyStrip (({ text := some "  " } : ScriptItem).text.getD "") = "" ∧
    (process_item sample_oracle "abc" {} 0 0 { text := some "  " } {}).2 =
      .ok { ({ text := some "  " } : ScriptItem) with voiceSec := some 0 } ∧
    (process_item sample_oracle "abc" {} 0 0 { text := some "  " } {}).1.events =
      ({} : RunSt).events ∧
    (process_item sample_oracle "abc" {} 0 0 { text := some "  " } {}).1.done =
      ({} : RunSt).done + 1 := by
  refine ⟨by decide, ?_, ?_, ?_⟩
  · exact (c6_empty_text_item sample_oracle "abc" {} 0 0 { text := some "  " } {}
      (by decide)).1
  · exact (c6_empty_text_item sample_oracle "abc" {} 0 0 { text := some "  " } {}
      (by decide)).2.1
  · exact (c6_empty_text_item sample_oracle "abc" {} 0 0 { text := some "  " } {}
      (by decide)).2.2.2.2.2.1

/-! ### C8 -/

/-- C8: duration determination — when the artifact file is missing the
text-length estimate is recorded; an ffprobe failure or unparsable output
propagates as an error; otherwise the probed value is recorded rounded to 3
decimals.  For non-blank trimmed text the estimate is
`round3 (max 0.4 (length / charsPerSecond))`. -/
theorem c8_duration_determination (o : Oracle) (st : RunSt)
    (target : List String) (text : String) :
    (fileExistsNow o st target = false →
      determine_duration o st target text =
        (st, .ok (estimate_voice_sec (some text)))) ∧
    (∀ m, fileExistsNow o st target = true →
      o.probe st.probeCalls = .exitFail m →
      determine_duration o st target text =
        ({ st with probeCalls := st.probeCalls + 1 },
          .error (.runtimeError ("ffprobe failed: " ++ m)))) ∧
    (fileExistsNow o st target = true →
      o.probe st.probeCalls = .output none →
      determine_duration o st target text =
        ({ st with probeCalls := st.probeCalls + 1 },
          .error (.runtimeError "invalid ffprobe output"))) ∧
    (∀ q, fileExistsNow o st target = true →
      o.probe st.probeCalls = .output (some q) →
      determine_duration o st target text =
        ({ st with probeCalls := st.probeCalls + 1 }, .ok (round3 q))) ∧
    (text ≠ "" → (pyStrip text).data.length ≠ 0 →
      estimate_voice_sec (some text) =
        round3 (max (4 / 10)
          (((pyStrip text).data.length : ℚ) / DEFAULT_CHAR_PER_SEC))) := by
  refine ⟨?_, ?_, ?_, ?_, ?_⟩
  · intro hmiss
    have hpad : probe_audio_duration o st target =
        (st, .error (.fileNotFound target)) := by
      unfold probe_audio_duration
      rw [hmiss]
      rfl
    unfold determine_duration
    rw [hpad]
  · intro m hex hprobe
    have hpad : probe_audio_duration o st target =
        ({ st with probeCalls := st.probeCalls + 1 },
          .error (.runtimeError ("ffprobe failed: " ++ m))) := by
      unfold probe_audio_duration
      rw [hex, hprobe]
      rfl
    unfold determine_duration
    rw [hpad]
  · intro hex hprobe
    have hpad : probe_audio_duration o st target =
        ({ st with probeCalls := st.probeCalls + 1 },
          .error (.runtimeError "invalid ffprobe output")) := by
      unfold probe_audio_duration
      rw [hex, hprobe]
      rfl
    unfold determine_duration
    rw [hpad]
  · intro q hex hprobe
    have hpad : probe_audio_duration o st target =
        ({ st with probeCalls := st.probeCalls + 1 }, .ok (round3 q)) := by
      unfold probe_audio_duration
      rw [hex, hprobe]
      rfl
    unfold determine_duration
    rw [hpad]
  · intro hne hlen
    rw [show estimate_voice_sec (some text) =
        (if text = "" then (0 : ℚ) else
          if (pyStrip text).data.length = 0 then 0 else
            round3 (max (4 / 10)
              (((pyStrip text).data.length : ℚ) / max DEFAULT_CHAR_PER_SEC 1)))
      from rfl]
    rw [if_neg hne, if_neg hlen]
    have hmax : max (DEFAULT_CHAR_PER_SEC : ℚ) 1 = DEFAULT_CHAR_PER_SEC := by
      rw [max_eq_left]
      norm_num [DEFAULT_CHAR_PER_SEC]
    rw [hmax]

theorem c8_duration_determination_witness :
    fileExistsNow sample_oracle {} ["t"] = false ∧
    determine_duration sample_oracle {} ["t"] "hi" =
      ({}, .ok (estimate_voice_sec (some "hi"))) ∧
    fileExistsNow sample_oracle { written := [["t"]] } ["t"] = true ∧
    determine_duration sample_oracle { written := [["t"]] } ["t"] "hi" =
      ({ written := [["t"]], probeCalls := 1 }, .ok (round3 1)) := by
  refine ⟨by decide, ?_, by decide, ?_⟩
  · exact (c8_duration_determination sample_oracle {} ["t"] "hi").1 (by decide)
  · exact (c8_duration_determination sample_oracle { written := [["t"]] } ["t"]
      "hi").2.2.2.1 1 (by decide) rfl

/-! ### C5 -/

/-- C5: with `overwrite = false`, an existing parameter file or output
video for the submitted `videoId` makes `create_job` reject with the 409
conflict error and leave the job store unchanged; when neither exists, a
fresh record for the request is appended to the store and returned. -/
theorem c5_conflict_guard (fs : List String → Bool)
    (jobs : List (String × JobRecord)) (new_id : String) (req : VideoJobRequest)
    (hov : req.options.overwrite = false) :
    (∀ param_path, parameter_path req.videoId = .ok param_path →
      (fs param_path = true ∨ fs (video_out_path req.videoId) = true) →
      create_job fs jobs new_id req = (jobs, .error conflict_error)) ∧
    (∀ param_path, parameter_path req.videoId = .ok param_path →
      fs param_path = false → fs (video_out_path req.videoId) = false →
      create_job fs jobs new_id req =
        (jobs ++ [(new_id, initialRecord new_id req)],
          .ok (initialRecord new_id req))) ∧
    conflict_error.code = 409 := by
  refine ⟨?_, ?_, rfl⟩
  · intro param_path hpp hor
    have hguard : (fs param_path || fs (video_out_path req.videoId)) = true := by
      rcases hor with h | h
      · rw [h]
        rfl
      · rw [h, Bool.or_true]
    unfold create_job
    rw [hov]
    simp only [Bool.false_eq_true, if_false, hpp, hguard, if_true]
  · intro param_path hpp h1 h2
    unfold create_job
    rw [hov]
    simp only [Bool.false_eq_true, if_false, hpp, h1, h2, Bool.or_self, if_false]

theorem c5_conflict_guard_witness :
    sample_request.options.overwrite = false ∧
    parameter_path sample_request.videoId =
      .ok ["remotion-projects", "abc", "parameter.json"] ∧
    create_job (fun _ => true) [] "j" sample_request =
      ([], .error conflict_error) ∧
    create_job (fun _ => false) [] "j" sample_request =
      ([("j", initialRecord "j" sample_request)],
        .ok (initialRecord "j" sample_request)) := by
  refine ⟨rfl, rfl, ?_, ?_⟩
  · exact (c5_conflict_guard (fun _ => true) [] "j" sample_request rfl).1
      ["remotion-projects", "abc", "parameter.json"] rfl (.inl rfl)
  · exact (c5_conflict_guard (fun _ => false) [] "j" sample_request rfl).2.1
      ["remotion-projects", "abc", "parameter.json"] rfl rfl rfl

/-! ### C4 -/

/-- C4 counterexample: a voice path with parent-directory traversal
segments is NOT rejected — the `..` segments are silently discarded and the
path resolves successfully inside the project directory. -/
theorem c4_traversal_not_rejected :
    resolve_voice_file "abc" "../../etc/passwd" =
      .ok ["remotion-projects", "abc", "etc", "passwd"] := by
  rfl

/-- C4 (corrected): `_safe_join` strips whitespace and leading slashes,
splits on separators and DISCARDS the `""`/`"."`/`".."` segments, so its
result always lexically remains under the base and the unsafe-path error is
never raised; in particular a traversal path such as `../../etc/passwd` is
not rejected but resolves inside the project directory. -/
theorem c4_safe_join_policy :
    (∀ base rel, safe_join base rel = .ok (base ++ rel_segments rel)) ∧
    (∀ rel seg, seg ∈ rel_segments rel → seg ≠ "" ∧ seg ≠ "." ∧ seg ≠ "..") ∧
    resolve_voice_file "abc" "../../etc/passwd" =
      .ok (project_dir "abc" ++ ["etc", "passwd"]) := by
  refine ⟨safe_join_ok, ?_, rfl⟩
  intro rel seg hseg
  exact rel_segments_sanitised seg hseg

theorem c4_safe_join_policy_witness :
    "etc" ∈ rel_segments "../../etc/passwd" ∧
    ("etc" ≠ "" ∧ "etc" ≠ "." ∧ "etc" ≠ "..") ∧
    safe_join ["remotion-projects", "abc"] "../../etc/passwd" =
      .ok ["remotion-projects", "abc", "etc", "passwd"] := by
  refine ⟨by decide, c4_safe_join_policy.2.1 "../../etc/passwd" "etc" (by decide),
    c4_safe_join_policy.1 ["remotion-projects", "abc"] "../../etc/passwd"⟩

/-! ### C10 -/

theorem isPrefixOf_head_ne {a b : Char} {as bs : List Char} (h : a ≠ b) :
    ((a :: as).isPrefixOf (b :: bs)) = false := by
  simp [List.isPrefixOf, h]

/-- Normalizing `vid ++ "/media/audio/a.wav"` (for a non-empty, slash-free,
whitespace-free `vid`) strips exactly the `vid ++ "/"` prefix. -/
theorem normalize_strips_vid_once {c : Char} {cs : List Char}
    (hsl : ∀ ch ∈ c :: cs, ch ≠ '/')
    (hws : ∀ ch ∈ c :: cs, ch.isWhitespace = false) :
    normalize_voice_path (String.mk (c :: cs))
      (String.mk (c :: cs) ++ "/media/audio/a.wav") = "media/audio/a.wav" := by
  set V : String := String.mk (c :: cs) with hV
  have hdata : (V ++ "/media/audio/a.wav").data =
      c :: (cs ++ "/media/audio/a.wav".data) := by
    simp [String.data_append, hV]
  have hvne : (V ++ "/media/audio/a.wav") ≠ "" := by
    intro hx
    have h2 : (V ++ "/media/audio/a.wav").data = [] := by rw [hx]
    rw [hdata] at h2
    exact List.cons_ne_nil _ _ h2
  have hstrip : pyStrip (V ++ "/media/audio/a.wav") = V ++ "/media/audio/a.wav" := by
    refine pyStrip_eq_self ?_
    intro ch hch
    rw [hdata] at hch
    rcases List.mem_cons.mp hch with rfl | hch
    · exact hws _ (List.mem_cons_self _ _)
    · rcases List.mem_append.mp hch with h | h
      · exact hws ch (List.mem_cons_of_mem c h)
      · revert h
        have hcst : ∀ ch ∈ ("/media/audio/a.wav" : String).data,
            ch.isWhitespace = false := by decide
        exact hcst ch
  unfold normalize_voice_path
  rw [if_neg hvne, hstrip]
  have hc1 : (("/data/projects/" ++ V ++ "/").data).isPrefixOf
      ((V ++ "/media/audio/a.wav").data) = false := by
    rw [hdata, show ("/data/projects/" ++ V ++ "/").data =
      '/' :: ("data/projects/".data ++ (c :: cs) ++ ['/']) from by
        simp [String.data_append, hV]]
    exact isPrefixOf_head_ne (Ne.symm (hsl c (List.mem_cons_self c cs)))
  have hc2 : (("data/projects/" ++ V ++ "/").data).isPrefixOf
      ((V ++ "/media/audio/a.wav").data) = false := by
    by_contra hx
    have hb : (("data/projects/" ++ V ++ "/").data).isPrefixOf
        ((V ++ "/media/audio/a.wav").data) = true := by
      revert hx
      cases (("data/projects/" ++ V ++ "/").data).isPrefixOf
        ((V ++ "/media/audio/a.wav").data) <;> simp
    have hpre : ("data/projects/" ++ V ++ "/").data <+:
        (V ++ "/media/audio/a.wav").data := by simpa using hb
    rw [show ("data/projects/" ++ V ++ "/").data =
        "data".data ++ '/' :: ("projects/".data ++ (c :: cs) ++ ['/']) from by
          simp [String.data_append, hV]
        , show (V ++ "/media/audio/a.wav").data =
        (c :: cs) ++ '/' :: "media/audio/a.wav".data from by
          simp [String.data_append, hV]] at hpre
    have halign := prefix_slash_align (by decide)
      (fun hm => hsl _ hm rfl) hpre
    have h2 := halign.2
    rw [show ("projects/".data ++ (c :: cs) ++ ['/']) =
        'p' :: ("rojects/".data ++ (c :: cs) ++ ['/']) from by
      rw [show ("projects/" : String).data = 'p' :: "rojects/".data from rfl]
      simp] at h2
    rw [show ("media/audio/a.wav" : String).data =
        'm' :: "edia/audio/a.wav".data from rfl] at h2
    rw [List.cons_prefix_cons] at h2
    exact absurd h2.1 (by decide)
  have hc3 : (("/" ++ V ++ "/").data).isPrefixOf
      ((V ++ "/media/audio/a.wav").data) = false := by
    rw [hdata, show ("/" ++ V ++ "/").data =
      '/' :: ((c :: cs) ++ ['/']) from by simp [String.data_append, hV]]
    exact isPrefixOf_head_ne (Ne.symm (hsl c (List.mem_cons_self c cs)))
  have hc4 : ((V ++ "/").data).isPrefixOf
      ((V ++ "/media/audio/a.wav").data) = true := by
    rw [show (V ++ "/media/audio/a.wav").data =
        ((c :: cs) ++ ['/']) ++ "media/audio/a.wav".data from by
          simp [String.data_append, hV],
      show (V ++ "/").data = (c :: cs) ++ ['/'] from by
        simp [String.data_append, hV]]
    simp
  simp only [known_prefixes, drop_first_matching]
  rw [hc1, hc2, hc3, hc4]
  simp only [Bool.false_eq_true, if_false, if_true]
  rw [show (V ++ "/media/audio/a.wav").data =
      ((c :: cs) ++ ['/']) ++ "media/audio/a.wav".data from by
        simp [String.data_append, hV],
    show (V ++ "/").data = (c :: cs) ++ ['/'] from by
      simp [String.data_append, hV]]
  rw [List.drop_left]
  rfl

/-- Normalizing the bare path `"media/audio/a.wav"` leaves it unchanged for
any slash-free `vid` other than `"media"`. -/
theorem normalize_keeps_bare_path {c : Char} {cs : List Char}
    (hsl : ∀ ch ∈ c :: cs, ch ≠ '/')
    (hnm : String.mk (c :: cs) ≠ "media") :
    normalize_voice_path (String.mk (c :: cs)) "media/audio/a.wav" =
      "media/audio/a.wav" := by
  set V : String := String.mk (c :: cs) with hV
  unfold normalize_voice_path
  rw [if_neg (by decide : ¬("media/audio/a.wav" : String) = ""),
    show pyStrip "media/audio/a.wav" = "media/audio/a.wav" from rfl]
  have hc1 : (("/data/projects/" ++ V ++ "/").data).isPrefixOf
      (("media/audio/a.wav" : String).data) = false := by
    rw [show ("/data/projects/" ++ V ++ "/").data =
        '/' :: ("data/projects/".data ++ (c :: cs) ++ ['/']) from by
          simp [String.data_append, hV],
      show ("media/audio/a.wav" : String).data =
        'm' :: "edia/audio/a.wav".data from rfl]
    exact isPrefixOf_head_ne (by decide)
  have hc2 : (("data/projects/" ++ V ++ "/").data).isPrefixOf
      (("media/audio/a.wav" : String).data) = false := by
    rw [show ("data/projects/" ++ V ++ "/").data =
        'd' :: ("ata/projects/".data ++ (c :: cs) ++ ['/']) from by
          simp [String.data_append, hV,
            show ("data/projects/" : String).data =
              'd' :: "ata/projects/".data from rfl],
      show ("media/audio/a.wav" : String).data =
        'm' :: "edia/audio/a.wav".data from rfl]
    exact isPrefixOf_head_ne (by decide)
  have hc3 : (("/" ++ V ++ "/").data).isPrefixOf
      (("media/audio/a.wav" : String).data) = false := by
    rw [show ("/" ++ V ++ "/").data =
        '/' :: ((c :: cs) ++ ['/']) from by simp [String.data_append, hV],
      show ("media/audio/a.wav" : String).data =
        'm' :: "edia/audio/a.wav".data from rfl]
    exact isPrefixOf_head_ne (by decide)
  have hc4 : ((V ++ "/").data).isPrefixOf
      (("media/audio/a.wav" : String).data) = false := by
    by_contra hx
    have hb : ((V ++ "/").data).isPrefixOf
        (("media/audio/a.wav" : String).data) = true := by
      revert hx
      cases ((V ++ "/").data).isPrefixOf
        (("media/audio/a.wav" : String).data) <;> simp
    have hpre : (V ++ "/").data <+: ("media/audio/a.wav" : String).data := by
      simpa using hb
    rw [show (V ++ "/").data = (c :: cs) ++ '/' :: ([] : List Char) from by
        simp [String.data_append, hV],
      show ("media/audio/a.wav" : String).data =
        "media".data ++ '/' :: "audio/a.wav".data from rfl] at hpre
    have halign := prefix_slash_align (fun hm => hsl _ hm rfl) (by decide) hpre
    exact hnm (congrArg String.mk halign.1)
  simp only [known_prefixes, drop_first_matching]
  rw [hc1, hc2, hc3, hc4]
  simp only [Bool.false_eq_true, if_false]
  rfl

/-- C10 counterexample: for `videoId = "media"`, the value
`{videoId}/media/audio/a.wav` does NOT resolve to the same artifact path as
`media/audio/a.wav` — the prefix `"media/"` is also stripped from the bare
path, so the two resolve to different locations. -/
theorem c10_media_collision :
    resolve_voice_file "media" ("media" ++ "/media/audio/a.wav") =
      .ok ["remotion-projects", "media", "media", "audio", "a.wav"] ∧
    resolve_voice_file "media" "media/audio/a.wav" =
      .ok ["remotion-projects", "media", "audio", "a.wav"] ∧
    (["remotion-projects", "media", "media", "audio", "a.wav"] : List String) ≠
      ["remotion-projects", "media", "audio", "a.wav"] := by
  refine ⟨rfl, rfl, by decide⟩

/-- C10 (corrected): a voice value is normalized by stripping surrounding
whitespace, removing the first matching of the four known prefixes, then
stripping remaining leading slashes; a value that normalizes to the empty
string fails with "voice path is empty"; and the claimed equivalence of
`{videoId}/media/audio/a.wav` with `media/audio/a.wav` holds for every
non-empty, slash-free, whitespace-free `videoId` EXCEPT `"media"` itself. -/
theorem c10_voice_path_normalization :
    (∀ vid v, v ≠ "" →
      normalize_voice_path vid v =
        lstripSlashes (drop_first_matching (known_prefixes vid) (pyStrip v))) ∧
    (∀ vid v, normalize_voice_path vid v = "" →
      resolve_voice_file vid v = .error "voice path is empty") ∧
    (∀ vid, vid ≠ "" → vid ≠ "media" →
      (∀ ch ∈ vid.data, ch ≠ '/' ∧ ch.isWhitespace = false) →
      resolve_voice_file vid (vid ++ "/media/audio/a.wav") =
        resolve_voice_file vid "media/audio/a.wav") := by
  refine ⟨?_, ?_, ?_⟩
  · intro vid v hv
    unfold normalize_voice_path
    rw [if_neg hv]
  · intro vid v hn
    rw [show resolve_voice_file vid v =
        (if normalize_voice_path vid v = "" then .error "voice path is empty"
         else safe_join (project_dir vid) (normalize_voice_path vid v)) from rfl,
      hn, if_pos rfl]
  · intro vid hne hnm hchars
    obtain ⟨l⟩ := vid
    rcases l with _ | ⟨c, cs⟩
    · exact absurd rfl hne
    have hsl : ∀ ch ∈ c :: cs, ch ≠ '/' := fun ch hm => (hchars ch hm).1
    have hws : ∀ ch ∈ c :: cs, ch.isWhitespace = false := fun ch hm => (hchars ch hm).2
    have hL := normalize_strips_vid_once hsl hws
    have hR := normalize_keeps_bare_path hsl hnm
    rw [show resolve_voice_file (String.mk (c :: cs))
          (String.mk (c :: cs) ++ "/media/audio/a.wav") =
        (if normalize_voice_path (String.mk (c :: cs))
              (String.mk (c :: cs) ++ "/media/audio/a.wav") = "" then
          .error "voice path is empty"
         else safe_join (project_dir (String.mk (c :: cs)))
           (normalize_voice_path (String.mk (c :: cs))
             (String.mk (c :: cs) ++ "/media/audio/a.wav"))) from rfl,
      show resolve_voice_file (String.mk (c :: cs)) "media/audio/a.wav" =
        (if normalize_voice_path (String.mk (c :: cs)) "media/audio/a.wav" = "" then
          .error "voice path is empty"
         else safe_join (project_dir (String.mk (c :: cs)))
           (normalize_voice_path (String.mk (c :: cs)) "media/audio/a.wav")) from rfl,
      hL, hR]

theorem c10_voice_path_normalization_witness :
    resolve_voice_file "abc" ("abc" ++ "/media/audio/a.wav") =
      resolve_voice_file "abc" "media/audio/a.wav" ∧
    resolve_voice_file "abc" "" = .error "voice path is empty" :=
  ⟨c10_voice_path_normalization.2.2 "abc" (by decide) (by decide) (by decide),
   c10_voice_path_normalization.2.1 "abc" "" rfl⟩
